import Mathlib

/-!
Verification of the MemoGarden storage kernel: a shallow embedding of the
cross-database transaction coordinator, the artifact delta engine, the entity
registry hash chain, the Soil relation store, the engagement index, the
context frame verbs, the conversation fold operation and the database path
resolver, together with theorems settling the specified properties.

Each definition is a direct translation of a function of the Python source
(database tables become lists of row structures, SQL `UPDATE ... WHERE`
becomes a map over rows, Python `raise` becomes an `Except`-style error
return that leaves the state unchanged when the raise precedes every write).
SHA-256 hashing (provided by Python's `hashlib` / the external `utils`
package) is abstracted as a function parameter: none of the verified
properties depends on the value of a hash, only on where hashes are stored.
-/

set_option maxRecDepth 4096

namespace MemoGarden

/-- Python exception kinds raised by the kernel (src/system/exceptions.py,
plus the builtin `ValueError` and `RuntimeError`). The payload of
`conflictError` mirrors `ConflictError(message, artifact_uuid,
expected_hash, actual_hash)`. -/
inductive PyErr where
  | valueError (msg : String)
  | runtimeError (msg : String)
  | validationError (msg : String)
  | resourceNotFound (msg : String)
  | conflictError (msg : String) (artifact_uuid : String)
      (expected_hash : String) (actual_hash : String)
  deriving DecidableEq, Repr

/-- `uid.strip_prefix`. Modelled from the spec: the `utils.uid` package is
outside src/; §3 states "Core objects are tagged `core_<uuid>`, Soil objects
`soil_<uuid>`. Persistence strips the tag." -/
def stripTag (s : String) : String :=
  match s.data with
  | 'c' :: 'o' :: 'r' :: 'e' :: '_' :: rest => String.mk rest
  | 's' :: 'o' :: 'i' :: 'l' :: '_' :: rest => String.mk rest
  | _ => s

/-- `uid.add_core_prefix`. Modelled from the spec: the `utils.uid` package is
outside src/; §3 states the API surface restores the `core_` tag. -/
def addCoreTag (s : String) : String := "core_" ++ s

-- ===========================================================================
-- C1: Cross-database transaction coordinator
-- (src/system/transaction_coordinator.py, CrossDatabaseTransaction)
-- ===========================================================================

/-- Commit state of one database connection at the end of a run.
`pending` stands for a transaction that was neither committed nor rolled
back before the process died; on recovery SQLite discards it, so it is
never visible as committed data. -/
inductive DbState where
  | pending
  | committed
  | rolledBack
  deriving DecidableEq, Repr

/-- Observable connection-level events of one coordinated exit, in
execution order. -/
inductive TxEvent where
  | soilCommitOk
  | soilCommitFail
  | soilRollback
  | coreCommitOk
  | coreCommitFail
  | coreRollback
  deriving DecidableEq, Repr

/-- How `CrossDatabaseTransaction.__exit__` terminates. -/
inductive TxOutcome where
  /-- Both commits succeeded; `__exit__` returns normally. -/
  | ok
  /-- An exception inside the block: both sides rolled back, exception
  propagates (`return False`). -/
  | innerException
  /-- Soil's own commit failed: both rolled back,
  `RuntimeError("Soil commit failed")`. -/
  | soilCommitError
  /-- Core commit failed after Soil committed:
  `ConsistencyError(details={soil_committed, core_error})`. -/
  | consistencyError (soil_committed : Bool) (core_error : String)
  /-- Process killed between the two commit points (fault injection):
  no further statement runs. -/
  | killed
  deriving DecidableEq, Repr

/-- Result of one run of `__exit__`: the event trace, the final state of
each database, and the outcome. -/
structure TxRun where
  events : List TxEvent
  soil : DbState
  core : DbState
  outcome : TxOutcome
  deriving DecidableEq, Repr

/-- `CrossDatabaseTransaction.__exit__` together with
`_commit_coordinated` and `_rollback_both`
(src/system/transaction_coordinator.py lines 297-380), under fault
injection.  `excInside`: an exception was raised inside the `with` block;
`soilFault`: `self._soil_conn.commit()` raises; `killBetween`: the process
dies after the Soil commit returns and before the Core commit is issued;
`coreFault`: `self._core_conn.commit()` raises (with message
`coreErrMsg`). -/
def crossDbExit (excInside soilFault killBetween coreFault : Bool)
    (coreErrMsg : String) : TxRun :=
  if excInside then
    -- __exit__ with exc_type ≠ None: _rollback_both, propagate
    { events := [.soilRollback, .coreRollback]
      soil := .rolledBack, core := .rolledBack
      outcome := .innerException }
  else if soilFault then
    -- _commit_coordinated: soil commit raises → _rollback_both, RuntimeError
    { events := [.soilCommitFail, .soilRollback, .coreRollback]
      soil := .rolledBack, core := .rolledBack
      outcome := .soilCommitError }
  else if killBetween then
    -- Soil committed; process dies before the Core commit statement
    { events := [.soilCommitOk]
      soil := .committed, core := .pending
      outcome := .killed }
  else if coreFault then
    -- Core commit raises after Soil committed: best-effort Core rollback,
    -- ConsistencyError with soil_committed=True and the Core error
    { events := [.soilCommitOk, .coreCommitFail, .coreRollback]
      soil := .committed, core := .rolledBack
      outcome := .consistencyError true coreErrMsg }
  else
    { events := [.soilCommitOk, .coreCommitOk]
      soil := .committed, core := .committed
      outcome := .ok }

end MemoGarden

namespace MemoGarden

/-- C1: in every execution of the coordinated exit, (i) on the normal path
Soil is committed strictly before Core (the event trace is Soil's commit
then Core's); (ii) whenever Core ends committed, Soil ended committed too;
(iii) if Core's commit fails after Soil committed, the outcome is a
`ConsistencyError` carrying `soil_committed = true` and the Core error
message, with Soil committed and Core rolled back; and (iv) the state
(Soil rolled back, Core committed) is unreachable. -/
theorem c1_cross_db_commit_order
    (excInside soilFault killBetween coreFault : Bool) (msg : String) :
    (let r := crossDbExit excInside soilFault killBetween coreFault msg
    (r.outcome = .ok →
        r.events = [TxEvent.soilCommitOk, TxEvent.coreCommitOk]) ∧
    (r.core = .committed → r.soil = .committed) ∧
    (excInside = false → soilFault = false → killBetween = false →
        coreFault = true →
      r.outcome = .consistencyError true msg ∧
        r.soil = .committed ∧ r.core = .rolledBack) ∧
    ¬(r.soil = .rolledBack ∧ r.core = .committed)) := by
  cases excInside <;> cases soilFault <;> cases killBetween <;>
    cases coreFault <;>
    simp [crossDbExit]

/-- C1 witness: the theorem instantiated at the fault-injection point
(Core commit fails after Soil committed), discharging every hypothesis. -/
theorem c1_cross_db_commit_order_witness :
    (crossDbExit false false false true "disk full").outcome =
        .consistencyError true "disk full" ∧
      (crossDbExit false false false true "disk full").soil = .committed ∧
      (crossDbExit false false false true "disk full").core = .rolledBack :=
  (c1_cross_db_commit_order false false false true "disk full").2.2.1
    rfl rfl rfl rfl

end MemoGarden

namespace MemoGarden

-- ===========================================================================
-- Artifact delta engine (src/system/core/artifact.py)
-- ===========================================================================

/-- Characters counted as whitespace by Python `str.strip()`. -/
def isPyWs (c : Char) : Bool :=
  c = ' ' || c = '\t' || c = '\n' || c = '\r' || c = '\x0b' || c = '\x0c'

/-- Python `str.strip()` over a character list. -/
def stripWs (l : List Char) : List Char :=
  ((l.dropWhile isPyWs).reverse.dropWhile isPyWs).reverse

/-- Python `str.strip()`. -/
def stripWsStr (s : String) : String := String.mk (stripWs s.data)

/-- Python `str.split(sep)` for a one-character separator: splits on every
occurrence, yielding `[""]` on the empty string. -/
def splitOnChar (c : Char) : List Char → List (List Char)
  | [] => [[]]
  | x :: xs =>
    match splitOnChar c xs with
    | [] => [[]]
    | y :: ys => if x = c then [] :: y :: ys else (x :: y) :: ys

/-- Python `sep.join(lines)` for a one-character separator. -/
def joinChar (c : Char) (ls : List (List Char)) : List Char :=
  match ls with
  | [] => []
  | [l] => l
  | l :: ls => l ++ c :: joinChar c ls

/-- Python `list.insert(i, x)`: insert before index `i`, appending when `i`
is past the end. -/
def insertAt (i : Nat) (x : α) : List α → List α
  | [] => [x]
  | y :: ys =>
    match i with
    | 0 => x :: y :: ys
    | i + 1 => y :: insertAt i x ys

/-- Python `list.pop(i)` (the remaining list; callers bound-check first). -/
def eraseAt (i : Nat) : List α → List α
  | [] => []
  | y :: ys =>
    match i with
    | 0 => ys
    | i + 1 => y :: eraseAt i ys

/-- Python `lines[i] = x` (callers bound-check first). -/
def setAt (i : Nat) (x : α) : List α → List α
  | [] => []
  | y :: ys =>
    match i with
    | 0 => x :: ys
    | i + 1 => y :: setAt i x ys

/-- Insert into a list already sorted descending by `key`, after every
element of greater-or-equal key (the placement a stable descending sort
gives). -/
def insertDescBy (key : α → Nat) (x : α) : List α → List α
  | [] => [x]
  | y :: ys => if key y < key x then x :: y :: ys else y :: insertDescBy key x ys

/-- Python `list.sort(key=…, reverse=True)`: stable descending sort. -/
def sortDescBy (key : α → Nat) (l : List α) : List α :=
  l.foldl (fun acc x => insertDescBy key x acc) []

/-- Insert into a list already sorted ascending by `key`, after every
element of smaller-or-equal key (stable ascending placement). -/
def insertAscBy (key : α → Nat) (x : α) : List α → List α
  | [] => [x]
  | y :: ys => if key x < key y then x :: y :: ys else y :: insertAscBy key x ys

/-- Python `list.sort(key=…)`: stable ascending sort. -/
def sortAscBy (key : α → Nat) (l : List α) : List α :=
  l.foldl (fun acc x => insertAscBy key x acc) []

/-- `DeltaOp`: one parsed delta operation (src/system/core/artifact.py,
dataclass `DeltaOp`). Fragment fields keep the leading caret, exactly as
the regex capture groups do. -/
inductive DeltaOp where
  | add (line : Nat) (fragment : List Char)
  | remove (line : Nat)
  | replace (line : Nat) (fragment replacement : List Char)
  | move (line target_line : Nat)
  deriving DecidableEq, Repr

/-- The `op.line` field shared by all four operation kinds. -/
def DeltaOp.line : DeltaOp → Nat
  | .add n _ => n
  | .remove n => n
  | .replace n _ _ => n
  | .move n _ => n

/-- Whether the op belongs to the remove/move pass. -/
def DeltaOp.isRemoveMove : DeltaOp → Bool
  | .remove _ => true
  | .move _ _ => true
  | _ => false

/-- Whether the op belongs to the add/replace pass. -/
def DeltaOp.isAddReplace : DeltaOp → Bool
  | .add _ _ => true
  | .replace _ _ _ => true
  | _ => false

/-- A character matched by `[a-z0-9]` (fragment body). -/
def isFragChar (c : Char) : Bool :=
  ('a' ≤ c && c ≤ 'z') || ('0' ≤ c && c ≤ '9')

/-- Leading run matched by `\d+`: the digits and the rest. -/
def takeDigits : List Char → List Char × List Char
  | [] => ([], [])
  | c :: cs =>
    if c.isDigit then
      let (ds, rest) := takeDigits cs
      (c :: ds, rest)
    else ([], c :: cs)

/-- Python `int(...)` on a digit string. -/
def digitsToNat (ds : List Char) : Nat :=
  ds.foldl (fun a c => a * 10 + (c.toNat - 48)) 0

/-- Match `\d+` at the front, returning its value and the rest. -/
def matchNat : List Char → Option (Nat × List Char)
  | l =>
    match takeDigits l with
    | ([], _) => none
    | (ds, rest) => some (digitsToNat ds, rest)

/-- Match `\^[a-z0-9]{3}` at the front, returning the caret-included
capture and the rest. -/
def matchFrag : List Char → Option (List Char × List Char)
  | '^' :: a :: b :: c :: rest =>
    if isFragChar a && isFragChar b && isFragChar c then
      some (['^', a, b, c], rest)
    else none
  | _ => none

/-- `^\+(\d+):(\^[a-z0-9]{3})$` (anchored). -/
def matchAdd : List Char → Option DeltaOp
  | '+' :: rest =>
    match matchNat rest with
    | some (n, ':' :: rest1) =>
      match matchFrag rest1 with
      | some (frag, []) => some (.add n frag)
      | _ => none
    | _ => none
  | _ => none

/-- `^-(\d+)$` (anchored). -/
def matchRemove : List Char → Option DeltaOp
  | '-' :: rest =>
    match matchNat rest with
    | some (n, []) => some (.remove n)
    | _ => none
  | _ => none

/-- `^~(\d+):(\^[a-z0-9]{3})→(\^[a-z0-9]{3})$` (anchored). -/
def matchReplace : List Char → Option DeltaOp
  | '~' :: rest =>
    match matchNat rest with
    | some (n, ':' :: rest1) =>
      match matchFrag rest1 with
      | some (frag, '→' :: rest2) =>
        match matchFrag rest2 with
        | some (repl, []) => some (.replace n frag repl)
        | _ => none
      | _ => none
    | _ => none
  | _ => none

/-- `^>(\d+)@(\d+)$` (anchored). -/
def matchMove : List Char → Option DeltaOp
  | '>' :: rest =>
    match matchNat rest with
    | some (n, '@' :: rest1) =>
      match matchNat rest1 with
      | some (t, []) => some (.move n t)
      | _ => none
    | _ => none
  | _ => none

/-- Try the four patterns in the order the source does
(add, remove, replace, move). -/
def matchOp (l : List Char) : Option DeltaOp :=
  match matchAdd l with
  | some op => some op
  | none =>
    match matchRemove l with
    | some op => some op
    | none =>
      match matchReplace l with
      | some op => some op
      | none => matchMove l

/-- The enumerated loop body of `parse_delta_ops`: 1-based position `n`,
skip stripped-empty lines, fail naming the offending position. -/
def parseOpsLoop : Nat → List (List Char) → Except PyErr (List DeltaOp)
  | _, [] => .ok []
  | n, l :: ls =>
    let l' := stripWs l
    if l' = [] then parseOpsLoop (n + 1) ls
    else
      match matchOp l' with
      | some op =>
        match parseOpsLoop (n + 1) ls with
        | .ok rest => .ok (op :: rest)
        | .error e => .error e
      | none =>
        .error (.valueError
          ("Invalid delta operation at line " ++ toString n ++ ": " ++ String.mk l'))

/-- `parse_delta_ops(ops_string)` (src/system/core/artifact.py lines
59-136): strip the whole string, split on newlines, parse each line. -/
def parse_delta_ops (ops_string : String) : Except PyErr (List DeltaOp) :=
  parseOpsLoop 1 (splitOnChar '\n' (stripWs ops_string.data))

/-- The first pass of `apply_delta_ops`: removes and moves (already sorted
descending by line by the caller). Bounds use the list lengths exactly as
the source does: the source line against the current length, the move
target against the pre-pop length. The add/replace fallback is unreachable
because the caller filters to removes and moves. -/
def applyRemovesMoves : List DeltaOp → List (List Char) →
    Except PyErr (List (List Char))
  | [], ls => .ok ls
  | op :: rest, ls =>
    if op.line < 1 || ls.length < op.line then
      .error (.valueError ("Invalid line number " ++ toString op.line ++
        " for content with " ++ toString ls.length ++ " lines"))
    else
      match op with
      | .remove n => applyRemovesMoves rest (eraseAt (n - 1) ls)
      | .move n t =>
        if t < 1 || ls.length < t then
          .error (.valueError ("Invalid target line number " ++ toString t))
        else
          applyRemovesMoves rest (insertAt (t - 1) (ls.getD (n - 1) []) (eraseAt (n - 1) ls))
      | _ => applyRemovesMoves rest ls

/-- The second pass of `apply_delta_ops`: adds and replaces (already sorted
ascending by line). An add at `len+1` appends; a replace is additionally
bounded by the current length. The remove/move fallback is unreachable
because the caller filters to adds and replaces. -/
def applyAddsReplaces : List DeltaOp → List (List Char) →
    Except PyErr (List (List Char))
  | [], ls => .ok ls
  | op :: rest, ls =>
    if op.line < 1 || ls.length + 1 < op.line then
      .error (.valueError ("Invalid line number " ++ toString op.line ++ " for insert"))
    else
      match op with
      | .add n frag =>
        applyAddsReplaces rest (insertAt (n - 1) ('[' :: frag ++ [']']) ls)
      | .replace n _ repl =>
        if n < 1 || ls.length < n then
          .error (.valueError ("Invalid line number " ++ toString n ++ " for replace"))
        else
          applyAddsReplaces rest (setAt (n - 1) ('[' :: repl ++ [']']) ls)
      | _ => applyAddsReplaces rest ls

/-- `apply_delta_ops(content, ops)` (src/system/core/artifact.py lines
139-190): split into lines, apply removes and moves in descending-line
order, then adds and replaces in ascending-line order, re-join. -/
def apply_delta_ops (content : String) (ops : List DeltaOp) : Except PyErr String :=
  let lines := splitOnChar '\n' content.data
  match applyRemovesMoves (sortDescBy DeltaOp.line (ops.filter DeltaOp.isRemoveMove)) lines with
  | .error e => .error e
  | .ok ls1 =>
    match applyAddsReplaces (sortAscBy DeltaOp.line (ops.filter DeltaOp.isAddReplace)) ls1 with
    | .error e => .error e
    | .ok ls2 => .ok (String.mk (joinChar '\n' ls2))

/-- `len(content.split('\n'))`, the `line_count` of a commit result. -/
def lineCount (content : String) : Nat :=
  (splitOnChar '\n' content.data).length

end MemoGarden

deriving instance DecidableEq for Except

namespace MemoGarden

-- ===========================================================================
-- Entity registry rows and operations (src/system/core/entity.py), the
-- commit protocol (src/system/core/artifact.py, ArtifactOperations) and the
-- fold verb (src/system/core/conversation.py)
-- ===========================================================================

/-- The summary object attached by `fold` (§3 ConversationLog payload). -/
structure Summary where
  timestamp : String
  author : String
  content : String
  fragment_ids : Option (List String)
  deriving DecidableEq, Repr

/-- The JSON `data` payload of an entity, restricted to the keys the
verified operations read or write (`content`/`deltas` for Artifacts,
`summary`/`collapsed` for ConversationLogs). `none` models an absent key,
so `data.get("content", "")` becomes `content.getD ""`. -/
structure EntityData where
  content : Option String
  deltas : Option (List String)
  summary : Option Summary
  collapsed : Option Bool
  deriving DecidableEq, Repr

/-- One row of the Core `entity` table. -/
structure EntityRow where
  uuid : String
  type : String
  hash : String
  previous_hash : Option String
  version : Nat
  group_id : Option String
  derived_from : Option String
  created_at : String
  updated_at : String
  superseded_by : Option String
  superseded_at : Option String
  data : EntityData
  deriving DecidableEq, Repr

/-- The argument tuple of `compute_entity_hash` (spec §4.1; the
implementation lives in the external `utils.hash_chain` package, so the
hash function itself is taken as a parameter `hashMeta` below). -/
structure HashInput where
  entity_type : String
  created_at : String
  updated_at : String
  group_id : Option String
  derived_from : Option String
  superseded_by : Option String
  superseded_at : Option String
  previous_hash : Option String
  deriving DecidableEq, Repr

/-- `UPDATE entity SET … WHERE uuid = ?`: apply `f` to every row whose
`uuid` matches. -/
def updateWhere (id : String) (f : EntityRow → EntityRow)
    (tbl : List EntityRow) : List EntityRow :=
  tbl.map (fun r => if r.uuid = id then f r else r)

/-- `EntityOperations.update_hash(entity_id)` (src/system/core/entity.py
lines 228-275): read the current row, compute the next hash with
`previous_hash` bound to the current `hash`, then
`UPDATE entity SET hash, previous_hash, version = version + 1, updated_at`.
Returns the updated table and the new hash. -/
def coreUpdateHash (hashMeta : HashInput → String) (now : String)
    (tbl : List EntityRow) (entity_id : String) :
    Except PyErr (List EntityRow × String) :=
  let id := stripTag entity_id
  match tbl.find? (fun r => r.uuid = id) with
  | none => .error (.resourceNotFound ("Entity not found: " ++ id))
  | some cur =>
    let newHash := hashMeta
      { entity_type := cur.type, created_at := cur.created_at,
        updated_at := now, group_id := cur.group_id,
        derived_from := cur.derived_from, superseded_by := cur.superseded_by,
        superseded_at := cur.superseded_at, previous_hash := some cur.hash }
    .ok (updateWhere id
      (fun r =>
        { r with
          hash := newHash
          previous_hash := some cur.hash
          version := r.version + 1
          updated_at := now }) tbl,
      newHash)

/-- `EntityOperations.update_data(entity_id, data)` (src/system/core/entity.py
lines 277-303): `UPDATE entity SET data, updated_at` (a no-op when the row
is absent), then `update_hash` (which raises `ResourceNotFound` when the
row is absent). -/
def coreUpdateData (hashMeta : HashInput → String) (now : String)
    (tbl : List EntityRow) (entity_id : String) (d : EntityData) :
    Except PyErr (List EntityRow) :=
  let id := stripTag entity_id
  let tbl1 := updateWhere id (fun r => { r with data := d, updated_at := now }) tbl
  match coreUpdateHash hashMeta now tbl1 id with
  | .error e => .error e
  | .ok (tbl2, _) => .ok tbl2

/-- `EntityOperations.supersede(old_id, new_id)` (src/system/core/entity.py
lines 181-226): compute the new hash with `previous_hash` bound to the
current `hash` and `superseded_by`/`superseded_at` set, then
`UPDATE entity SET superseded_by, superseded_at, updated_at, hash,
version = version + 1`. Note: the `previous_hash` column is not written. -/
def coreSupersede (hashMeta : HashInput → String) (now : String)
    (tbl : List EntityRow) (old_id new_id : String) :
    Except PyErr (List EntityRow) :=
  let oldId := stripTag old_id
  let newId := stripTag new_id
  match tbl.find? (fun r => r.uuid = oldId) with
  | none => .error (.resourceNotFound ("Entity not found: " ++ oldId))
  | some cur =>
    let newHash := hashMeta
      { entity_type := cur.type, created_at := cur.created_at,
        updated_at := now, group_id := cur.group_id,
        derived_from := cur.derived_from, superseded_by := some newId,
        superseded_at := some now, previous_hash := some cur.hash }
    .ok (updateWhere oldId
      (fun r =>
        { r with
          superseded_by := some newId
          superseded_at := some now
          updated_at := now
          hash := newHash
          version := r.version + 1 }) tbl)

/-- One ArtifactDelta Fact row of the Soil `item` table, with the typed
`data` payload `commit_delta` writes (`{artifact_uuid, ops, based_on_hash,
result_hash}`). -/
structure FactRow where
  uuid : String
  _type : String
  realized_at : String
  canonical_at : String
  fidelity : String
  data_artifact_uuid : String
  data_ops : String
  data_based_on_hash : String
  data_result_hash : String
  deriving DecidableEq, Repr

/-- One row of the Core `user_relation` table (src/system/core/relation.py,
dataclass `UserRelation`). -/
structure UserRelRow where
  uuid : String
  kind : String
  source : String
  source_type : String
  target : String
  target_type : String
  time_horizon : Int
  last_access_at : Int
  created_at : Int
  evidence : Option String
  metadata : Option String
  deriving DecidableEq, Repr

/-- The joint store a cross-database operation touches: the Core `entity`
table, the Soil `item` table (ArtifactDelta facts) and the Core
`user_relation` table. -/
structure SysState where
  entities : List EntityRow
  facts : List FactRow
  user_relations : List UserRelRow
  deriving DecidableEq, Repr

/-- `RelationOperations.create(kind, …)` (src/system/core/relation.py lines
76-145): reject kinds outside `USER_RELATION_KINDS = {'explicit_link'}`,
strip tags, insert with `time_horizon = today + initial_horizon_days` and
`last_access_at = created_at = today`, return the `core_`-tagged UUID.
`today` stands for `current_day()` and `newUuid` for the generated UUID
(both produced outside src/). -/
def relationCreate (today : Int) (newUuid : String)
    (tbl : List UserRelRow) (kind source source_type target target_type : String)
    (initial_horizon_days : Int) (evidence metadata : Option String) :
    Except PyErr (List UserRelRow × String) :=
  if kind ≠ "explicit_link" then
    .error (.valueError ("Invalid relation kind: " ++ kind))
  else
    let row : UserRelRow :=
      { uuid := newUuid, kind := kind, source := stripTag source,
        source_type := source_type, target := stripTag target,
        target_type := target_type,
        time_horizon := today + initial_horizon_days,
        last_access_at := today, created_at := today,
        evidence := evidence, metadata := metadata }
    .ok (tbl ++ [row], addCoreTag newUuid)

/-- The result dictionary of a successful `commit_delta`. -/
structure CommitResult where
  artifact_uuid : String
  previous_hash : String
  new_hash : String
  new_content : String
  delta_uuid : String
  line_count : Nat
  deriving DecidableEq, Repr

/-- `ArtifactOperations.commit_delta` (src/system/core/artifact.py lines
270-405). Parameters standing for effects produced outside src/:
`hashContent` for `compute_content_hash` (SHA-256 8-hex prefix), `now` for
`isodatetime.now()`, `today` for `current_day()`, `deltaUuid` for
`generate_soil_uuid()` (already `soil_`-tagged) and `relUuid` for the
relation UUID.  The state is returned unchanged on every raising path that
precedes the first write; the `references` argument is accepted and, as in
the source, never used. -/
def commitDelta (hashContent : String → String) (now : String) (today : Int)
    (deltaUuid relUuid : String) (st : SysState)
    (artifact_uuid ops_string : String) (references : List String)
    (based_on_hash : String) (source_message_uuid : Option String) :
    SysState × Except PyErr CommitResult :=
  let auuid := stripTag artifact_uuid
  match st.entities.find? (fun r => r.uuid = auuid) with
  | none => (st, .error (.resourceNotFound ("Artifact not found: " ++ auuid)))
  | some row =>
    if row.type ≠ "Artifact" then
      (st, .error (.valueError ("Entity " ++ auuid ++ " is not an Artifact")))
    else if row.hash ≠ based_on_hash then
      (st, .error (.conflictError "Artifact modified since last read"
        auuid based_on_hash row.hash))
    else
      let current_content := row.data.content.getD ""
      match parse_delta_ops ops_string with
      | .error e =>
        -- `raise ValueError(f"Invalid delta operations: {e}")`
        (st, .error (match e with
          | .valueError m => .valueError ("Invalid delta operations: " ++ m)
          | e => e))
      | .ok ops =>
        match apply_delta_ops current_content ops with
        | .error e => (st, .error e)
        | .ok new_content =>
          let new_hash := hashContent new_content
          let current_deltas := row.data.deltas.getD []
          let deltaFact : FactRow :=
            { uuid := deltaUuid, _type := "ArtifactDelta",
              realized_at := now, canonical_at := now, fidelity := "full",
              data_artifact_uuid := addCoreTag auuid, data_ops := ops_string,
              data_based_on_hash := based_on_hash, data_result_hash := new_hash }
          let facts1 := st.facts ++ [deltaFact]
          let newData :=
            { row.data with
              content := some new_content
              deltas := some (current_deltas ++ [deltaUuid]) }
          let ents1 := updateWhere auuid
            (fun r => { r with data := newData, hash := new_hash, updated_at := now })
            st.entities
          let result : CommitResult :=
            { artifact_uuid := addCoreTag auuid, previous_hash := row.hash,
              new_hash := new_hash, new_content := new_content,
              delta_uuid := deltaUuid, line_count := lineCount new_content }
          match source_message_uuid with
          | none =>
            ({ entities := ents1, facts := facts1,
               user_relations := st.user_relations }, .ok result)
          | some src =>
            match relationCreate today relUuid st.user_relations "triggers"
                (stripTag src) "item" (stripTag deltaUuid) "item" 7 none none with
            | .error e =>
              ({ entities := ents1, facts := facts1,
                 user_relations := st.user_relations }, .error e)
            | .ok (rels1, _) =>
              ({ entities := ents1, facts := facts1, user_relations := rels1 },
                .ok result)

/-- The result of `fold` (src/system/core/conversation.py, `FoldResult`). -/
structure FoldResult where
  log_uuid : String
  summary : Summary
  collapsed : Bool
  deriving DecidableEq, Repr

/-- `ConversationOperations.fold` (src/system/core/conversation.py lines
62-139): reject empty or whitespace-only summaries with the builtin
`ValueError`, resolve the log, attach the summary object, set
`collapsed = true` and `UPDATE entity SET data, updated_at` (no hash or
version change). The table is returned unchanged on every raising path. -/
def conversationFold (now : String) (tbl : List EntityRow)
    (log_uuid summary_content author : String)
    (fragment_ids : Option (List String)) :
    List EntityRow × Except PyErr FoldResult :=
  if summary_content = "" || stripWsStr summary_content = "" then
    (tbl, .error (.valueError "Summary content cannot be empty"))
  else
    let id := stripTag log_uuid
    match tbl.find? (fun r => r.uuid = id) with
    | none => (tbl, .error (.resourceNotFound ("ConversationLog not found: " ++ id)))
    | some row =>
      let summary : Summary :=
        { timestamp := now, author := author, content := summary_content,
          fragment_ids :=
            match fragment_ids with
            | some (f :: fs) => some (f :: fs)
            | _ => none }
      let newData := { row.data with summary := some summary, collapsed := some true }
      let tbl1 := updateWhere id
        (fun r => { r with data := newData, updated_at := now }) tbl
      (tbl1, .ok { log_uuid := addCoreTag id, summary := summary, collapsed := true })

end MemoGarden

namespace MemoGarden

/-- C2: when the stored hash of an existing Artifact differs from
`based_on_hash`, `commit_delta` raises `ConflictError` carrying the
artifact uuid, the expected hash (`based_on_hash`) and the actual stored
hash, and the whole state — Core entity table, Soil fact table and the
user-relation table — is returned unchanged: no ArtifactDelta fact is
created and the artifact row is untouched. -/
theorem c2_commit_delta_conflict_no_write
    (hashContent : String → String) (now : String) (today : Int)
    (deltaUuid relUuid : String) (st : SysState)
    (artifact_uuid ops_string : String) (references : List String)
    (based_on_hash : String) (source_message_uuid : Option String)
    (row : EntityRow)
    (hfind : st.entities.find? (fun r => r.uuid = stripTag artifact_uuid) = some row)
    (htype : row.type = "Artifact")
    (hconf : row.hash ≠ based_on_hash) :
    commitDelta hashContent now today deltaUuid relUuid st artifact_uuid
        ops_string references based_on_hash source_message_uuid =
      (st, .error (.conflictError "Artifact modified since last read"
        (stripTag artifact_uuid) based_on_hash row.hash)) := by
  simp only [commitDelta]
  rw [hfind]
  simp [htype, hconf]

/-- C2 witness: a concrete Artifact stored under hash `h1` rejects a commit
based on the stale hash `h0`, leaving the state untouched. -/
theorem c2_commit_delta_conflict_no_write_witness :
    commitDelta (fun _ => "H") "t1" 0 "soil_d1" "r1"
        { entities := [{ uuid := "a1", type := "Artifact", hash := "h1",
                         previous_hash := none, version := 2, group_id := none,
                         derived_from := none, created_at := "t0",
                         updated_at := "t0", superseded_by := none,
                         superseded_at := none,
                         data := { content := some "a\nb\nc", deltas := some [],
                                   summary := none, collapsed := none } }],
          facts := [], user_relations := [] }
        "a1" "+1:^abc" [] "h0" none =
      ({ entities := [{ uuid := "a1", type := "Artifact", hash := "h1",
                        previous_hash := none, version := 2, group_id := none,
                        derived_from := none, created_at := "t0",
                        updated_at := "t0", superseded_by := none,
                        superseded_at := none,
                        data := { content := some "a\nb\nc", deltas := some [],
                                  summary := none, collapsed := none } }],
         facts := [], user_relations := [] },
       .error (.conflictError "Artifact modified since last read" "a1" "h0" "h1")) :=
  c2_commit_delta_conflict_no_write (fun _ => "H") "t1" 0 "soil_d1" "r1" _
    "a1" "+1:^abc" [] "h0" none
    { uuid := "a1", type := "Artifact", hash := "h1",
      previous_hash := none, version := 2, group_id := none,
      derived_from := none, created_at := "t0",
      updated_at := "t0", superseded_by := none,
      superseded_at := none,
      data := { content := some "a\nb\nc", deltas := some [],
                summary := none, collapsed := none } }
    (by decide) (by decide) (by decide)

/-- Removes and moves are never adds and replaces. -/
theorem deltaOp_passes_disjoint (op : DeltaOp) :
    (op.isRemoveMove && op.isAddReplace) = false := by
  cases op <;> rfl



/-- Inserting always grows the list by one (an index past the end
appends). -/
theorem insertAt_length (x : α) : ∀ (l : List α) (i : Nat),
    (insertAt i x l).length = l.length + 1 := by
  intro l
  induction l with
  | nil => intro i; cases i <;> rfl
  | cons y ys ih =>
    intro i
    cases i with
    | zero => rfl
    | succ j => simp [insertAt, ih j]

/-- Erasing never grows the list. -/
theorem eraseAt_length_le : ∀ (l : List α) (i : Nat),
    (eraseAt i l).length ≤ l.length := by
  intro l
  induction l with
  | nil => intro i; simp [eraseAt]
  | cons y ys ih =>
    intro i
    cases i with
    | zero => simp [eraseAt]
    | succ j =>
      simp only [eraseAt, List.length_cons]
      exact Nat.succ_le_succ (ih j)

/-- Erasing at an in-bounds index shrinks the list by exactly one. -/
theorem eraseAt_length_of_lt : ∀ (l : List α) (i : Nat), i < l.length →
    (eraseAt i l).length = l.length - 1 := by
  intro l
  induction l with
  | nil => intro i h; simp at h
  | cons y ys ih =>
    intro i h
    cases i with
    | zero => simp [eraseAt]
    | succ j =>
      have hj : j < ys.length := by simpa using Nat.lt_of_succ_lt_succ h
      simp only [eraseAt, List.length_cons]
      rw [ih j hj]
      omega

/-- Overwriting a line preserves the length. -/
theorem setAt_length (x : α) : ∀ (l : List α) (i : Nat),
    (setAt i x l).length = l.length := by
  intro l
  induction l with
  | nil => intro i; cases i <;> rfl
  | cons y ys ih =>
    intro i
    cases i with
    | zero => rfl
    | succ j => simp [setAt, ih j]

/-- A stable descending insertion is a permutation of consing. -/
theorem insertDescBy_perm (key : α → Nat) (x : α) :
    ∀ (l : List α), List.Perm (insertDescBy key x l) (x :: l) := by
  intro l
  induction l with
  | nil => exact List.Perm.refl [x]
  | cons y ys ih =>
    unfold insertDescBy
    by_cases h : key y < key x
    · rw [if_pos h]
    · rw [if_neg h]
      exact (ih.cons y).trans (List.Perm.swap x y ys)

/-- The stable descending sort permutes its input. -/
theorem sortDescBy_perm (key : α → Nat) (l : List α) :
    List.Perm (sortDescBy key l) l := by
  have H : ∀ (l acc : List α),
      List.Perm (l.foldl (fun acc x => insertDescBy key x acc) acc) (l ++ acc) := by
    intro l
    induction l with
    | nil => intro acc; simp
    | cons a tl ih =>
      intro acc
      rw [List.foldl_cons]
      refine (ih _).trans ?_
      refine (List.Perm.append_left tl (insertDescBy_perm key a acc)).trans ?_
      exact List.perm_middle
  simpa using H l []

/-- A stable ascending insertion is a permutation of consing. -/
theorem insertAscBy_perm (key : α → Nat) (x : α) :
    ∀ (l : List α), List.Perm (insertAscBy key x l) (x :: l) := by
  intro l
  induction l with
  | nil => exact List.Perm.refl [x]
  | cons y ys ih =>
    unfold insertAscBy
    by_cases h : key x < key y
    · rw [if_pos h]
    · rw [if_neg h]
      exact (ih.cons y).trans (List.Perm.swap x y ys)

/-- The stable ascending sort permutes its input. -/
theorem sortAscBy_perm (key : α → Nat) (l : List α) :
    List.Perm (sortAscBy key l) l := by
  have H : ∀ (l acc : List α),
      List.Perm (l.foldl (fun acc x => insertAscBy key x acc) acc) (l ++ acc) := by
    intro l
    induction l with
    | nil => intro acc; simp
    | cons a tl ih =>
      intro acc
      rw [List.foldl_cons]
      refine (ih _).trans ?_
      refine (List.Perm.append_left tl (insertAscBy_perm key a acc)).trans ?_
      exact List.perm_middle
  simpa using H l []

/-- A successful remove/move pass never grows the line list: removes
shrink it and moves preserve it. -/
theorem applyRemovesMoves_ok_length :
    ∀ (ops : List DeltaOp) (ls ls' : List (List Char)),
      applyRemovesMoves ops ls = .ok ls' → ls'.length ≤ ls.length := by
  intro ops
  induction ops with
  | nil =>
    intro ls ls' h
    cases h
    exact le_refl _
  | cons op rest ih =>
    intro ls ls' h
    unfold applyRemovesMoves at h
    by_cases hg : (decide (op.line < 1) || decide (ls.length < op.line)) = true
    · rw [if_pos hg] at h
      cases h
    · rw [if_neg hg] at h
      have hga : ¬(op.line < 1) ∧ ¬(ls.length < op.line) := by
        simpa [not_or] using hg
      rcases op with ⟨n, f⟩ | n | ⟨n, f, g⟩ | ⟨n, t⟩
      · exact ih ls ls' h
      · exact (ih _ ls' h).trans (eraseAt_length_le ls (n - 1))
      · exact ih ls ls' h
      · dsimp only at h
        by_cases hg2 : (decide (t < 1) || decide (ls.length < t)) = true
        · rw [if_pos hg2] at h
          cases h
        · rw [if_neg hg2] at h
          refine (ih _ ls' h).trans ?_
          rw [insertAt_length, eraseAt_length_of_lt]
          · simp only [DeltaOp.line] at hga
            omega
          · simp only [DeltaOp.line] at hga
            omega

/-- An out-of-range remove or move reference, relative to the line count
the remove/move pass starts from: a line (or move target) of 0 or beyond
the last line. Since the pass never grows the list, such a reference also
exceeds every intermediate state. -/
def outOfRangeRM (bound : Nat) : DeltaOp → Prop
  | .remove n => n = 0 ∨ bound < n
  | .move n t => n = 0 ∨ bound < n ∨ t = 0 ∨ bound < t
  | _ => False

/-- Out-of-range-ness survives shrinking the bound. -/
theorem outOfRangeRM_mono {low high : Nat} (h : low ≤ high) :
    ∀ {op : DeltaOp}, outOfRangeRM high op → outOfRangeRM low op := by
  intro op
  rcases op with ⟨n, f⟩ | n | ⟨n, f, g⟩ | ⟨n, t⟩ <;>
    simp only [outOfRangeRM, imp_self] <;> omega

/-- The remove/move pass fails whenever the op list holds an op that is
out of range for the starting line count (the failure may fire at an
earlier op; some error is raised either way). -/
theorem applyRemovesMoves_out_of_range :
    ∀ (ops : List DeltaOp) (ls : List (List Char)) (op : DeltaOp),
      op ∈ ops → outOfRangeRM ls.length op →
      ∃ e, applyRemovesMoves ops ls = .error e := by
  intro ops
  induction ops with
  | nil => intro ls op hmem; simp at hmem
  | cons op0 rest ih =>
    intro ls op hmem hbad
    rcases List.mem_cons.mp hmem with rfl | hmem'
    · rcases op with ⟨n, f⟩ | n | ⟨n, f, g⟩ | ⟨n, t⟩
      · exact absurd hbad (by simp [outOfRangeRM])
      · have hg : (decide ((DeltaOp.remove n).line < 1) ||
            decide (ls.length < (DeltaOp.remove n).line)) = true := by
          simp only [DeltaOp.line, Bool.or_eq_true, decide_eq_true_eq]
          simp only [outOfRangeRM] at hbad
          omega
        exact ⟨_, by unfold applyRemovesMoves; rw [if_pos hg]⟩
      · exact absurd hbad (by simp [outOfRangeRM])
      · simp only [outOfRangeRM] at hbad
        by_cases hg : (decide ((DeltaOp.move n t).line < 1) ||
            decide (ls.length < (DeltaOp.move n t).line)) = true
        · exact ⟨_, by unfold applyRemovesMoves; rw [if_pos hg]⟩
        · have hga : ¬(n < 1) ∧ ¬(ls.length < n) := by
            simpa [DeltaOp.line, not_or] using hg
          have hg2 : (decide (t < 1) || decide (ls.length < t)) = true := by
            simp only [Bool.or_eq_true, decide_eq_true_eq]
            omega
          exact ⟨_, by
            unfold applyRemovesMoves
            rw [if_neg hg]
            dsimp only
            rw [if_pos hg2]⟩
    · by_cases hg : (decide (op0.line < 1) || decide (ls.length < op0.line)) = true
      · exact ⟨_, by unfold applyRemovesMoves; rw [if_pos hg]⟩
      · have hga : ¬(op0.line < 1) ∧ ¬(ls.length < op0.line) := by
          simpa [not_or] using hg
        rcases op0 with ⟨m, f⟩ | m | ⟨m, f, g⟩ | ⟨m, t⟩
        · obtain ⟨e, he⟩ := ih ls op hmem' hbad
          exact ⟨e, by unfold applyRemovesMoves; rw [if_neg hg]; dsimp only; exact he⟩
        · have hb' := outOfRangeRM_mono (eraseAt_length_le ls (m - 1)) hbad
          obtain ⟨e, he⟩ := ih _ op hmem' hb'
          exact ⟨e, by unfold applyRemovesMoves; rw [if_neg hg]; dsimp only; exact he⟩
        · obtain ⟨e, he⟩ := ih ls op hmem' hbad
          exact ⟨e, by unfold applyRemovesMoves; rw [if_neg hg]; dsimp only; exact he⟩
        · by_cases hg2 : (decide (t < 1) || decide (ls.length < t)) = true
          · exact ⟨_, by
              unfold applyRemovesMoves
              rw [if_neg hg]
              dsimp only
              rw [if_pos hg2]⟩
          · have hlen : (insertAt (t - 1) (ls.getD (m - 1) [])
                (eraseAt (m - 1) ls)).length ≤ ls.length := by
              rw [insertAt_length, eraseAt_length_of_lt]
              · simp only [DeltaOp.line] at hga
                omega
              · simp only [DeltaOp.line] at hga
                omega
            have hb' := outOfRangeRM_mono hlen hbad
            obtain ⟨e, he⟩ := ih _ op hmem' hb'
            exact ⟨e, by
              unfold applyRemovesMoves
              rw [if_neg hg]
              dsimp only
              rw [if_neg hg2]
              exact he⟩


/-- Whether the op is an add (the only op kind that grows the list). -/
def DeltaOp.isAdd : DeltaOp → Bool
  | .add _ _ => true
  | _ => false

/-- The number of add ops in a list. -/
def countAdds (ops : List DeltaOp) : Nat :=
  ops.countP (fun op => op.isAdd)

/-- An out-of-range add or replace reference: a line of 0, or beyond
`bound`, where `bound` is the starting line count plus the number of adds
in the op list — the largest length the list can reach while the pass
runs (each add grows it by one, replaces preserve it). For a single add
this is the tight `line > len + 1`, for a single replace the tight
`line > len`. -/
def outOfRangeAR (bound : Nat) : DeltaOp → Prop
  | .add n _ => n = 0 ∨ bound < n
  | .replace n _ _ => n = 0 ∨ bound < n
  | _ => False

/-- Out-of-range-ness survives shrinking the bound. -/
theorem outOfRangeAR_mono {low high : Nat} (h : low ≤ high) :
    ∀ {op : DeltaOp}, outOfRangeAR high op → outOfRangeAR low op := by
  intro op
  rcases op with ⟨n, f⟩ | n | ⟨n, f, g⟩ | ⟨n, t⟩ <;>
    simp only [outOfRangeAR, imp_self] <;> omega

/-- The add/replace pass fails whenever the op list holds an op that is
out of range for the bound `ls.length + countAdds ops` (the failure may
fire at an earlier op; some error is raised either way). -/
theorem applyAddsReplaces_out_of_range :
    ∀ (ops : List DeltaOp) (ls : List (List Char)) (op : DeltaOp),
      op ∈ ops → outOfRangeAR (ls.length + countAdds ops) op →
      ∃ e, applyAddsReplaces ops ls = .error e := by
  intro ops
  induction ops with
  | nil => intro ls op hmem; simp at hmem
  | cons op0 rest ih =>
    intro ls op hmem hbad
    rcases List.mem_cons.mp hmem with rfl | hmem'
    · rcases op with ⟨n, f⟩ | n | ⟨n, f, g⟩ | ⟨n, t⟩
      · have hc : countAdds (DeltaOp.add n f :: rest) = countAdds rest + 1 := by
          simp [countAdds, List.countP_cons, DeltaOp.isAdd]
        rw [hc] at hbad
        simp only [outOfRangeAR] at hbad
        have hg : (decide ((DeltaOp.add n f).line < 1) ||
            decide (ls.length + 1 < (DeltaOp.add n f).line)) = true := by
          simp only [DeltaOp.line, Bool.or_eq_true, decide_eq_true_eq]
          omega
        exact ⟨_, by unfold applyAddsReplaces; rw [if_pos hg]⟩
      · exact absurd hbad (by simp [outOfRangeAR])
      · have hc : countAdds (DeltaOp.replace n f g :: rest) = countAdds rest := by
          simp [countAdds, List.countP_cons, DeltaOp.isAdd]
        rw [hc] at hbad
        simp only [outOfRangeAR] at hbad
        by_cases hg : (decide ((DeltaOp.replace n f g).line < 1) ||
            decide (ls.length + 1 < (DeltaOp.replace n f g).line)) = true
        · exact ⟨_, by unfold applyAddsReplaces; rw [if_pos hg]⟩
        · have hg2 : (decide (n < 1) || decide (ls.length < n)) = true := by
            simp only [Bool.or_eq_true, decide_eq_true_eq]
            omega
          exact ⟨_, by
            unfold applyAddsReplaces
            rw [if_neg hg]
            dsimp only
            rw [if_pos hg2]⟩
      · exact absurd hbad (by simp [outOfRangeAR])
    · by_cases hg : (decide (op0.line < 1) ||
          decide (ls.length + 1 < op0.line)) = true
      · exact ⟨_, by unfold applyAddsReplaces; rw [if_pos hg]⟩
      · rcases op0 with ⟨m, f⟩ | m | ⟨m, f, g⟩ | ⟨m, t⟩
        · have hb' : outOfRangeAR
              ((insertAt (m - 1) ('[' :: f ++ [']']) ls).length + countAdds rest) op := by
            have hc : countAdds (DeltaOp.add m f :: rest) = countAdds rest + 1 := by
              simp [countAdds, List.countP_cons, DeltaOp.isAdd]
            rw [hc] at hbad
            rw [insertAt_length]
            have harith : ls.length + 1 + countAdds rest =
                ls.length + (countAdds rest + 1) := by omega
            rw [harith]
            exact hbad
          obtain ⟨e, he⟩ := ih _ op hmem' hb'
          exact ⟨e, by unfold applyAddsReplaces; rw [if_neg hg]; dsimp only; exact he⟩
        · have hc : countAdds (DeltaOp.remove m :: rest) = countAdds rest := by
            simp [countAdds, List.countP_cons, DeltaOp.isAdd]
          rw [hc] at hbad
          obtain ⟨e, he⟩ := ih ls op hmem' hbad
          exact ⟨e, by unfold applyAddsReplaces; rw [if_neg hg]; dsimp only; exact he⟩
        · have hc : countAdds (DeltaOp.replace m f g :: rest) = countAdds rest := by
            simp [countAdds, List.countP_cons, DeltaOp.isAdd]
          rw [hc] at hbad
          by_cases hg2 : (decide (m < 1) || decide (ls.length < m)) = true
          · exact ⟨_, by
              unfold applyAddsReplaces
              rw [if_neg hg]
              dsimp only
              rw [if_pos hg2]⟩
          · have hb' : outOfRangeAR
                ((setAt (m - 1) ('[' :: g ++ [']']) ls).length + countAdds rest) op := by
              rw [setAt_length]
              exact hbad
            obtain ⟨e, he⟩ := ih _ op hmem' hb'
            exact ⟨e, by
              unfold applyAddsReplaces
              rw [if_neg hg]
              dsimp only
              rw [if_neg hg2]
              exact he⟩
        · have hc : countAdds (DeltaOp.move m t :: rest) = countAdds rest := by
            simp [countAdds, List.countP_cons, DeltaOp.isAdd]
          rw [hc] at hbad
          obtain ⟨e, he⟩ := ih ls op hmem' hbad
          exact ⟨e, by unfold applyAddsReplaces; rw [if_neg hg]; dsimp only; exact he⟩

/-- Filtering to the add/replace pass keeps every add. -/
theorem countAdds_filter_ar (ops : List DeltaOp) :
    countAdds (ops.filter DeltaOp.isAddReplace) = countAdds ops := by
  unfold countAdds
  induction ops with
  | nil => rfl
  | cons op rest ih =>
    rcases op with ⟨n, f⟩ | n | ⟨n, f, g⟩ | ⟨n, t⟩
    · rw [List.filter_cons_of_pos (by rfl), List.countP_cons, List.countP_cons, ih]
    · rw [List.filter_cons_of_neg (by simp [DeltaOp.isAddReplace]),
        List.countP_cons, ih]
      simp [DeltaOp.isAdd]
    · rw [List.filter_cons_of_pos (by rfl), List.countP_cons, List.countP_cons, ih]
    · rw [List.filter_cons_of_neg (by simp [DeltaOp.isAddReplace]),
        List.countP_cons, ih]
      simp [DeltaOp.isAdd]

/-- An out-of-range remove or move anywhere in the op list makes
`apply_delta_ops` fail: the remove/move pass runs first over the split
content and never grows it. -/
theorem apply_delta_ops_out_of_range_rm (content : String)
    (ops : List DeltaOp) (op : DeltaOp) (hmem : op ∈ ops)
    (hbad : outOfRangeRM (lineCount content) op) :
    ∃ e, apply_delta_ops content ops = .error e := by
  have hrm : op.isRemoveMove = true := by
    rcases op with ⟨n, f⟩ | n | ⟨n, f, g⟩ | ⟨n, t⟩
    · exact absurd hbad (by simp [outOfRangeRM])
    · rfl
    · exact absurd hbad (by simp [outOfRangeRM])
    · rfl
  have hmem' : op ∈ sortDescBy DeltaOp.line (ops.filter DeltaOp.isRemoveMove) :=
    ((sortDescBy_perm DeltaOp.line _).mem_iff).mpr
      (List.mem_filter.mpr ⟨hmem, hrm⟩)
  obtain ⟨e, he⟩ := applyRemovesMoves_out_of_range _
    (splitOnChar '\n' content.data) op hmem' hbad
  exact ⟨e, by simp only [apply_delta_ops]; rw [he]⟩

/-- An out-of-range add or replace anywhere in the op list — a line of 0
or beyond the content's line count plus the number of adds (the largest
length reachable during the pass) — makes `apply_delta_ops` fail. -/
theorem apply_delta_ops_out_of_range_ar (content : String)
    (ops : List DeltaOp) (op : DeltaOp) (hmem : op ∈ ops)
    (hbad : outOfRangeAR (lineCount content + countAdds ops) op) :
    ∃ e, apply_delta_ops content ops = .error e := by
  have har : op.isAddReplace = true := by
    rcases op with ⟨n, f⟩ | n | ⟨n, f, g⟩ | ⟨n, t⟩
    · rfl
    · exact absurd hbad (by simp [outOfRangeAR])
    · rfl
    · exact absurd hbad (by simp [outOfRangeAR])
  cases h1 : applyRemovesMoves
      (sortDescBy DeltaOp.line (ops.filter DeltaOp.isRemoveMove))
      (splitOnChar '\n' content.data) with
  | error e => exact ⟨e, by simp only [apply_delta_ops]; rw [h1]⟩
  | ok ls1 =>
    have hlen := applyRemovesMoves_ok_length _ _ _ h1
    have hcnt : countAdds
        (sortAscBy DeltaOp.line (ops.filter DeltaOp.isAddReplace)) =
        countAdds ops := by
      unfold countAdds
      rw [(sortAscBy_perm DeltaOp.line _).countP_eq]
      exact countAdds_filter_ar ops
    have hmem' : op ∈ sortAscBy DeltaOp.line (ops.filter DeltaOp.isAddReplace) :=
      ((sortAscBy_perm DeltaOp.line _).mem_iff).mpr
        (List.mem_filter.mpr ⟨hmem, har⟩)
    have hb' : outOfRangeAR (ls1.length + countAdds
        (sortAscBy DeltaOp.line (ops.filter DeltaOp.isAddReplace))) op := by
      rw [hcnt]
      exact outOfRangeAR_mono (Nat.add_le_add_right hlen _) hbad
    obtain ⟨e, he⟩ := applyAddsReplaces_out_of_range _ ls1 op hmem' hb'
    exact ⟨e, by simp only [apply_delta_ops]; rw [h1]; dsimp only; rw [he]⟩

/-- C4: the delta application discipline. (i) `apply_delta_ops` depends on
its op list only through the remove/move pass followed by the add/replace
pass, so any interleaving is equivalent to all removes and moves first and
then all adds and replaces (each pass sorted by the source order:
descending lines for removes and moves, ascending for adds and replaces);
(ii) an out-of-range remove or move reference — a source line or move
target of 0 or beyond the content's last line — anywhere in the op list
makes the application fail, as does (iii) an out-of-range add or replace
reference — a line of 0 or beyond the largest length the pass can reach
(the line count plus the number of adds: the tight `len+1` for a lone
add, the tight `len` for a lone replace); (iv) a single out-of-range
remove fails with the source's message; and (v) concretely,
`"+2:^xyz\n-3"` parses to an add at line 2 of fragment `^xyz` and a
remove of line 3, and applied to `"a\nb\nc"` yields `"a\n[^xyz]\nb"`
with `line_count` 3. -/
theorem c4_delta_ops_order_and_example :
    (∀ (content : String) (ops : List DeltaOp),
      apply_delta_ops content ops =
        apply_delta_ops content
          (ops.filter DeltaOp.isRemoveMove ++ ops.filter DeltaOp.isAddReplace)) ∧
    (∀ (content : String) (ops : List DeltaOp) (op : DeltaOp),
      op ∈ ops → outOfRangeRM (lineCount content) op →
      ∃ e, apply_delta_ops content ops = .error e) ∧
    (∀ (content : String) (ops : List DeltaOp) (op : DeltaOp),
      op ∈ ops → outOfRangeAR (lineCount content + countAdds ops) op →
      ∃ e, apply_delta_ops content ops = .error e) ∧
    (∀ (content : String) (n : Nat), (n = 0 ∨ lineCount content < n) →
      apply_delta_ops content [.remove n] =
        .error (.valueError ("Invalid line number " ++ toString n ++
          " for content with " ++ toString (lineCount content) ++ " lines"))) ∧
    parse_delta_ops "+2:^xyz\n-3" =
      .ok [.add 2 ['^', 'x', 'y', 'z'], .remove 3] ∧
    apply_delta_ops "a\nb\nc" [.add 2 ['^', 'x', 'y', 'z'], .remove 3] =
      .ok "a\n[^xyz]\nb" ∧
    lineCount "a\n[^xyz]\nb" = 3 := by
  refine ⟨?_, ?_, ?_, ?_, by decide, by decide, by decide⟩
  · intro content ops
    have hrm : (ops.filter DeltaOp.isRemoveMove ++
        ops.filter DeltaOp.isAddReplace).filter DeltaOp.isRemoveMove =
        ops.filter DeltaOp.isRemoveMove := by
      rw [List.filter_append, List.filter_filter, List.filter_filter]
      have h1 : ops.filter (fun a => a.isRemoveMove && a.isRemoveMove) =
          ops.filter DeltaOp.isRemoveMove := by
        apply List.filter_congr
        intro a _
        rw [Bool.and_self]
      have h2 : ops.filter (fun a => a.isRemoveMove && a.isAddReplace) = [] := by
        rw [List.filter_eq_nil_iff]
        intro a _
        rw [deltaOp_passes_disjoint]
        exact Bool.false_ne_true
      rw [h1, h2, List.append_nil]
    have har : (ops.filter DeltaOp.isRemoveMove ++
        ops.filter DeltaOp.isAddReplace).filter DeltaOp.isAddReplace =
        ops.filter DeltaOp.isAddReplace := by
      rw [List.filter_append, List.filter_filter, List.filter_filter]
      have h1 : ops.filter (fun a => a.isAddReplace && a.isRemoveMove) = [] := by
        rw [List.filter_eq_nil_iff]
        intro a _
        rw [Bool.and_comm, deltaOp_passes_disjoint]
        exact Bool.false_ne_true
      have h2 : ops.filter (fun a => a.isAddReplace && a.isAddReplace) =
          ops.filter DeltaOp.isAddReplace := by
        apply List.filter_congr
        intro a _
        rw [Bool.and_self]
      rw [h1, h2, List.nil_append]
    conv_rhs => rw [apply_delta_ops, hrm, har]
    rfl
  · intro content ops op hmem hbad
    exact apply_delta_ops_out_of_range_rm content ops op hmem hbad
  · intro content ops op hmem hbad
    exact apply_delta_ops_out_of_range_ar content ops op hmem hbad
  · intro content n hn
    have hcond : (n < 1 || (splitOnChar '\n' content.data).length < n) = true := by
      rcases hn with h | h
      · subst h
        simp
      · have : lineCount content < n := h
        unfold lineCount at this
        simp [this]
    unfold apply_delta_ops
    simp only [List.filter, DeltaOp.isRemoveMove, sortDescBy, List.foldl,
      insertDescBy, applyRemovesMoves, DeltaOp.line]
    rw [hcond]
    rfl

/-- C4 witness: the out-of-range components at concrete inputs — a move
with target 5 beyond 3 lines inside a two-op list, a replace at line 9
beyond the reachable length 4 inside a two-op list, and a lone remove of
line 4 on three lines failing with the source's message. -/
theorem c4_delta_ops_order_and_example_witness :
    (∃ e, apply_delta_ops "a\nb\nc"
      [.add 1 ['^', 'q', 'r', 's'], .move 2 5] = .error e) ∧
    (∃ e, apply_delta_ops "a\nb\nc"
      [.add 1 ['^', 'q', 'r', 's'],
       .replace 9 ['^', 'q', 'r', 's'] ['^', 'd', 'e', 'f']] = .error e) ∧
    apply_delta_ops "a\nb\nc" [.remove 4] =
      .error (.valueError ("Invalid line number " ++ toString 4 ++
        " for content with " ++ toString (lineCount "a\nb\nc") ++ " lines")) :=
  ⟨c4_delta_ops_order_and_example.2.1 "a\nb\nc"
      [.add 1 ['^', 'q', 'r', 's'], .move 2 5] (.move 2 5)
      (by decide) (by simp only [outOfRangeRM]; decide),
   c4_delta_ops_order_and_example.2.2.1 "a\nb\nc"
      [.add 1 ['^', 'q', 'r', 's'],
       .replace 9 ['^', 'q', 'r', 's'] ['^', 'd', 'e', 'f']]
      (.replace 9 ['^', 'q', 'r', 's'] ['^', 'd', 'e', 'f'])
      (by decide) (by simp only [outOfRangeAR]; decide),
   c4_delta_ops_order_and_example.2.2.2.1 "a\nb\nc" 4 (Or.inr (by decide))⟩

end MemoGarden

namespace MemoGarden

/-- A row returned by a uuid lookup is a member of the table and carries
the looked-up uuid. -/
theorem find?_uuid_mem {tbl : List EntityRow} {id : String} {cur : EntityRow}
    (h : tbl.find? (fun r => r.uuid = id) = some cur) :
    cur ∈ tbl ∧ cur.uuid = id := by
  refine ⟨List.mem_of_find?_eq_some h, ?_⟩
  have h2 := List.find?_some h
  simpa using h2

/-- The transformed image of a matching row is in the updated table. -/
theorem mem_updateWhere_of_match {tbl : List EntityRow} {id : String}
    {cur : EntityRow} (f : EntityRow → EntityRow)
    (hmem : cur ∈ tbl) (hid : cur.uuid = id) :
    f cur ∈ updateWhere id f tbl := by
  unfold updateWhere
  have h := List.mem_map_of_mem (fun r => if r.uuid = id then f r else r) hmem
  simpa [hid] using h

/-- A uuid lookup after a uuid-preserving `UPDATE` finds the transformed
row. -/
theorem find?_updateWhere {id : String} {g : EntityRow → EntityRow}
    (hg : ∀ r, (g r).uuid = r.uuid) :
    ∀ {tbl : List EntityRow} {cur : EntityRow},
      tbl.find? (fun r => r.uuid = id) = some cur →
      (updateWhere id g tbl).find? (fun r => r.uuid = id) = some (g cur) := by
  intro tbl
  induction tbl with
  | nil => intro cur h; simp at h
  | cons a tl ih =>
    intro cur h
    unfold updateWhere at *
    by_cases hc : a.uuid = id
    · rw [List.find?_cons_of_pos _ (by simpa using hc)] at h
      cases h
      simp only [List.map_cons, if_pos hc]
      exact List.find?_cons_of_pos _ (by simp [hg, hc])
    · rw [List.find?_cons_of_neg _ (by simpa using hc)] at h
      simp only [List.map_cons, if_neg hc]
      rw [List.find?_cons_of_neg _ (by simpa using hc)]
      exact ih h

/-- Rows of a chain-field-preserving `UPDATE` keep uuid, version and
previous_hash of a source row. -/
theorem mem_updateWhere_chain {id : String} {f : EntityRow → EntityRow}
    {tbl : List EntityRow}
    (hf : ∀ r, (f r).uuid = r.uuid ∧ (f r).version = r.version ∧
      (f r).previous_hash = r.previous_hash)
    {x : EntityRow} (hx : x ∈ updateWhere id f tbl) :
    ∃ r ∈ tbl, x.uuid = r.uuid ∧ x.version = r.version ∧
      x.previous_hash = r.previous_hash := by
  unfold updateWhere at hx
  obtain ⟨r, hr, hxr⟩ := List.mem_map.mp hx
  refine ⟨r, hr, ?_⟩
  by_cases hc : r.uuid = id
  · rw [if_pos hc] at hxr
    subst hxr
    exact hf r
  · rw [if_neg hc] at hxr
    subst hxr
    exact ⟨rfl, rfl, rfl⟩

/-- Rows of an `UPDATE` preserving all four chain fields also keep hash. -/
theorem mem_updateWhere_chain_hash {id : String} {f : EntityRow → EntityRow}
    {tbl : List EntityRow}
    (hf : ∀ r, (f r).uuid = r.uuid ∧ (f r).version = r.version ∧
      (f r).previous_hash = r.previous_hash ∧ (f r).hash = r.hash)
    {x : EntityRow} (hx : x ∈ updateWhere id f tbl) :
    ∃ r ∈ tbl, x.uuid = r.uuid ∧ x.version = r.version ∧
      x.previous_hash = r.previous_hash ∧ x.hash = r.hash := by
  unfold updateWhere at hx
  obtain ⟨r, hr, hxr⟩ := List.mem_map.mp hx
  refine ⟨r, hr, ?_⟩
  by_cases hc : r.uuid = id
  · rw [if_pos hc] at hxr
    subst hxr
    exact hf r
  · rw [if_neg hc] at hxr
    subst hxr
    exact ⟨rfl, rfl, rfl, rfl⟩

/-- C3 counterexample: `commit_delta` step 6 mutates the Artifact entity
row (its `data.content` and stored `hash` change) yet its `version` stays
1 and its `previous_hash` stays ⊥ instead of advancing to the pre-step
hash `h0` — so not every mutation of an Entity row increments the version
and records the prior hash. -/
theorem c3_counterexample_commit_delta_no_version_bump :
    (let st : SysState :=
      { entities := [{ uuid := "a1", type := "Artifact", hash := "h0",
                       previous_hash := none, version := 1, group_id := none,
                       derived_from := none, created_at := "t0",
                       updated_at := "t0", superseded_by := none,
                       superseded_at := none,
                       data := { content := some "a\nb\nc", deltas := some [],
                                 summary := none, collapsed := none } }],
        facts := [], user_relations := [] }
    let st1 := (commitDelta (fun _ => "h1") "t1" 0 "soil_d1" "r1" st
        "a1" "+2:^xyz\n-3" [] "h0" none).1
    st1.entities.map (fun r => r.data.content) = [some "a\n[^xyz]\nb"] ∧
    st1.entities.map (fun r => r.hash) = ["h1"] ∧
    st1.entities.map (fun r => r.version) = [1] ∧
    st1.entities.map (fun r => r.previous_hash) = [none]) := by
  decide

set_option maxHeartbeats 1600000 in
/-- C3 as amended: the operations routed through `update_hash`
(`update_hash` itself and `update_data`) strictly increment the version
and set `previous_hash` to the hash held immediately before the step;
`supersede` strictly increments the version and rolls the hash forward but
leaves the `previous_hash` column unchanged; and neither the entity update
of `commit_delta` step 6 nor the persist of `fold` ever changes the
version or `previous_hash` of any entity row. -/
theorem c3_hash_chain_steps :
    (∀ (hashMeta : HashInput → String) (now : String) (tbl : List EntityRow)
        (entity_id : String) (cur : EntityRow),
      tbl.find? (fun r => r.uuid = stripTag entity_id) = some cur →
      ∃ newHash tbl',
        coreUpdateHash hashMeta now tbl entity_id = .ok (tbl', newHash) ∧
        { cur with
            hash := newHash
            previous_hash := some cur.hash
            version := cur.version + 1
            updated_at := now } ∈ tbl') ∧
    (∀ (hashMeta : HashInput → String) (now : String) (tbl : List EntityRow)
        (entity_id : String) (d : EntityData) (cur : EntityRow),
      stripTag (stripTag entity_id) = stripTag entity_id →
      tbl.find? (fun r => r.uuid = stripTag entity_id) = some cur →
      ∃ newHash tbl',
        coreUpdateData hashMeta now tbl entity_id d = .ok tbl' ∧
        { cur with
            data := d
            hash := newHash
            previous_hash := some cur.hash
            version := cur.version + 1
            updated_at := now } ∈ tbl') ∧
    (∀ (hashMeta : HashInput → String) (now : String) (tbl : List EntityRow)
        (old_id new_id : String) (cur : EntityRow),
      tbl.find? (fun r => r.uuid = stripTag old_id) = some cur →
      ∃ newHash tbl',
        coreSupersede hashMeta now tbl old_id new_id = .ok tbl' ∧
        { cur with
            superseded_by := some (stripTag new_id)
            superseded_at := some now
            updated_at := now
            hash := newHash
            version := cur.version + 1 } ∈ tbl') ∧
    (∀ (now : String) (tbl : List EntityRow) (log_uuid sc author : String)
        (frag : Option (List String)) (tbl' : List EntityRow)
        (res : Except PyErr FoldResult),
      conversationFold now tbl log_uuid sc author frag = (tbl', res) →
      ∀ x ∈ tbl', ∃ r ∈ tbl, x.uuid = r.uuid ∧ x.version = r.version ∧
        x.previous_hash = r.previous_hash ∧ x.hash = r.hash) ∧
    (∀ (hashContent : String → String) (now : String) (today : Int)
        (dU rU : String) (st : SysState) (a o : String) (refs : List String)
        (b : String) (sm : Option String) (st' : SysState)
        (res : Except PyErr CommitResult),
      commitDelta hashContent now today dU rU st a o refs b sm = (st', res) →
      ∀ x ∈ st'.entities, ∃ r ∈ st.entities, x.uuid = r.uuid ∧
        x.version = r.version ∧ x.previous_hash = r.previous_hash) := by
  refine ⟨?_, ?_, ?_, ?_, ?_⟩
  · intro hashMeta now tbl entity_id cur h
    obtain ⟨hmem, hid⟩ := find?_uuid_mem h
    simp only [coreUpdateHash]
    rw [h]
    exact ⟨_, _, rfl, mem_updateWhere_of_match _ hmem hid⟩
  · intro hashMeta now tbl entity_id d cur hidem h
    have h1 := find?_updateWhere
      (g := fun r => { r with data := d, updated_at := now }) (fun r => rfl) h
    obtain ⟨hmem1, hid1⟩ := find?_uuid_mem h1
    simp only [coreUpdateData, coreUpdateHash]
    rw [hidem, h1]
    exact ⟨_, _, rfl, mem_updateWhere_of_match _ hmem1 hid1⟩
  · intro hashMeta now tbl old_id new_id cur h
    obtain ⟨hmem, hid⟩ := find?_uuid_mem h
    simp only [coreSupersede]
    rw [h]
    exact ⟨_, _, rfl, mem_updateWhere_of_match _ hmem hid⟩
  · intro now tbl log_uuid sc author frag tbl' res h x hx
    simp only [conversationFold] at h
    split at h
    · cases h
      exact ⟨x, hx, rfl, rfl, rfl, rfl⟩
    · rcases hfind : tbl.find? (fun r => r.uuid = stripTag log_uuid) with _ | row
      · rw [hfind] at h
        cases h
        exact ⟨x, hx, rfl, rfl, rfl, rfl⟩
      · rw [hfind] at h
        cases h
        refine mem_updateWhere_chain_hash ?_ hx
        exact fun r => ⟨rfl, rfl, rfl, rfl⟩
  · intro hashContent now today dU rU st a o refs b sm st' res h x hx
    simp only [commitDelta] at h
    rcases hfind : st.entities.find? (fun r => r.uuid = stripTag a) with _ | row
    · rw [hfind] at h
      cases h
      exact ⟨x, hx, rfl, rfl, rfl⟩
    · rw [hfind] at h
      dsimp only at h
      by_cases htype : row.type = "Artifact"
      · rw [if_neg (not_not_intro htype)] at h
        by_cases hhash : row.hash = b
        · rw [if_neg (not_not_intro hhash)] at h
          rcases hp : parse_delta_ops o with e | ops <;> rw [hp] at h <;>
            dsimp only at h
          · cases h
            exact ⟨x, hx, rfl, rfl, rfl⟩
          · rcases ha : apply_delta_ops (row.data.content.getD "") ops with e | nc <;>
              rw [ha] at h <;> dsimp only at h
            · cases h
              exact ⟨x, hx, rfl, rfl, rfl⟩
            · rcases sm with _ | src <;> dsimp only at h
              · cases h
                refine mem_updateWhere_chain ?_ hx
                exact fun r => ⟨rfl, rfl, rfl⟩
              · rcases hrel : relationCreate today rU st.user_relations "triggers"
                    (stripTag src) "item" (stripTag dU) "item" 7 none none with e | pr <;>
                  rw [hrel] at h <;> dsimp only at h
                · cases h
                  refine mem_updateWhere_chain ?_ hx
                  exact fun r => ⟨rfl, rfl, rfl⟩
                · rcases pr with ⟨rels1, u⟩
                  dsimp only at h
                  cases h
                  refine mem_updateWhere_chain ?_ hx
                  exact fun r => ⟨rfl, rfl, rfl⟩
        · rw [if_pos hhash] at h
          cases h
          exact ⟨x, hx, rfl, rfl, rfl⟩
      · rw [if_pos htype] at h
        cases h
        exact ⟨x, hx, rfl, rfl, rfl⟩

/-- C3 witness: `update_hash` applied to a concrete one-row table advances
the chain of that row: version 5 becomes 6 and `previous_hash` becomes the
pre-step hash `h5`. -/
theorem c3_hash_chain_steps_witness :
    ∃ newHash tbl',
      coreUpdateHash (fun _ => "h6") "t9"
          [{ uuid := "e1", type := "Transaction", hash := "h5",
             previous_hash := some "h4", version := 5, group_id := none,
             derived_from := none, created_at := "t0", updated_at := "t8",
             superseded_by := none, superseded_at := none,
             data := { content := none, deltas := none,
                       summary := none, collapsed := none } }]
          "e1" = .ok (tbl', newHash) ∧
      ({ uuid := "e1", type := "Transaction", hash := newHash,
         previous_hash := some "h5", version := 6, group_id := none,
         derived_from := none, created_at := "t0", updated_at := "t9",
         superseded_by := none, superseded_at := none,
         data := { content := none, deltas := none,
                   summary := none, collapsed := none } } : EntityRow) ∈ tbl' :=
  c3_hash_chain_steps.1 (fun _ => "h6") "t9"
    [{ uuid := "e1", type := "Transaction", hash := "h5",
       previous_hash := some "h4", version := 5, group_id := none,
       derived_from := none, created_at := "t0", updated_at := "t8",
       superseded_by := none, superseded_at := none,
       data := { content := none, deltas := none,
                 summary := none, collapsed := none } }]
    "e1"
    { uuid := "e1", type := "Transaction", hash := "h5",
      previous_hash := some "h4", version := 5, group_id := none,
      derived_from := none, created_at := "t0", updated_at := "t8",
      superseded_by := none, superseded_at := none,
      data := { content := none, deltas := none,
                summary := none, collapsed := none } }
    (by decide)

end MemoGarden

namespace MemoGarden

/-- Whether an error is the repo's `ValidationError`
(src/system/exceptions.py lines 28-31) as opposed to the builtin
`ValueError`. -/
def PyErr.isValidationError : PyErr → Bool
  | .validationError _ => true
  | _ => false

/-- C8 counterexample: on an existing ConversationLog, `fold` with a
whitespace-only summary raises the *builtin* `ValueError` ("Summary content
cannot be empty"), not the repo's `ValidationError` — the state is
unchanged, but the exception type the claim names is wrong. -/
theorem c8_counterexample_fold_raises_value_error :
    (let tbl : List EntityRow :=
      [{ uuid := "log1", type := "ConversationLog", hash := "h0",
         previous_hash := none, version := 1, group_id := none,
         derived_from := none, created_at := "t0", updated_at := "t0",
         superseded_by := none, superseded_at := none,
         data := { content := none, deltas := none,
                   summary := none, collapsed := some false } }]
    let out := conversationFold "t1" tbl "log1" "   " "operator" none
    out = (tbl, .error (.valueError "Summary content cannot be empty")) ∧
    (match out.2 with
     | .error e => e.isValidationError
     | .ok _ => true) = false) := by
  decide

/-- C8 as amended: for every summary that is empty or whitespace-only,
`fold` raises the builtin `ValueError` (not `ValidationError`) and leaves
the entity table — hence the log's stored data — unchanged. -/
theorem c8_fold_rejects_blank_summary
    (now : String) (tbl : List EntityRow) (log_uuid sc author : String)
    (frag : Option (List String))
    (hblank : stripWsStr sc = "") :
    conversationFold now tbl log_uuid sc author frag =
      (tbl, .error (.valueError "Summary content cannot be empty")) := by
  unfold conversationFold
  simp [hblank]

/-- C8 witness: the amended theorem at a concrete whitespace-only summary
over a concrete one-log table. -/
theorem c8_fold_rejects_blank_summary_witness :
    conversationFold "t1"
        [{ uuid := "log1", type := "ConversationLog", hash := "h0",
           previous_hash := none, version := 1, group_id := none,
           derived_from := none, created_at := "t0", updated_at := "t0",
           superseded_by := none, superseded_at := none,
           data := { content := none, deltas := none,
                     summary := none, collapsed := some false } }]
        "log1" " \t " "operator" none =
      ([{ uuid := "log1", type := "ConversationLog", hash := "h0",
          previous_hash := none, version := 1, group_id := none,
          derived_from := none, created_at := "t0", updated_at := "t0",
          superseded_by := none, superseded_at := none,
          data := { content := none, deltas := none,
                    summary := none, collapsed := some false } }],
       .error (.valueError "Summary content cannot be empty")) :=
  c8_fold_rejects_blank_summary "t1" _ "log1" " \t " "operator" none (by decide)

-- ===========================================================================
-- Context frames and scope verbs (src/system/core/context.py)
-- ===========================================================================

/-- The `ContextFrame` dataclass (src/system/core/context.py lines
140-175). `active_scopes = none` models the Python `None` of non-operator
frames. -/
structure ContextFrame where
  uuid : String
  owner : String
  owner_type : String
  containers : List String
  view_timeline : List String
  created_at : String
  parent_frame_uuid : Option String
  is_subordinate : Bool
  active_scopes : Option (List String)
  primary_scope : Option String
  deriving DecidableEq, Repr

/-- `PRIMITIVE_TYPES` (src/system/core/context.py lines 71-75). -/
def PRIMITIVE_TYPES : List String := ["Schema", "SystemConfig", "ContextFrame"]

/-- The LRU update of `update_containers` once the visit is known to be
substantive: move the uuid to front (removing its first occurrence if
present), then truncate to `context_size` when over capacity. -/
def lruInsert (containers : List String) (visited_uuid : String)
    (context_size : Nat) : List String :=
  let c1 := if visited_uuid ∈ containers
            then containers.erase visited_uuid else containers
  let c2 := visited_uuid :: c1
  if context_size < c2.length then c2.take context_size else c2

/-- `ContextOperations.update_containers` (src/system/core/context.py lines
401-462). `entityType?` stands for the `get_by_id` lookup of the visited
uuid: `some t` when the entity exists with type `t`, `none` when
`ResourceNotFound` was swallowed (the uuid may be an item); a primitive
type returns the frame unchanged, anything else takes the LRU update. -/
def updateContainers (entityType? : Option String) (frame : ContextFrame)
    (visited_uuid : String) (context_size : Nat) :
    Except PyErr ContextFrame :=
  if ¬(3 ≤ context_size ∧ context_size ≤ 20) then
    .error (.validationError "context_size must be between 3 and 20")
  else
    match entityType? with
    | some t =>
      if t ∈ PRIMITIVE_TYPES then .ok frame
      else .ok { frame with
        containers := lruInsert frame.containers visited_uuid context_size }
    | none =>
      .ok { frame with
        containers := lruInsert frame.containers visited_uuid context_size }

/-- `ContextOperations.enter_scope` (src/system/core/context.py lines
609-670): non-operator frames and already-active scopes are rejected with
`ValidationError` before any write (the frame is returned unchanged with
the error); otherwise the scope is appended and, when `primary_scope` was
⊥, it becomes primary (implied focus). -/
def enterScope (frame : ContextFrame) (scope_uuid : String) :
    ContextFrame × Option PyErr :=
  if frame.owner_type ≠ "operator" then
    (frame, some (.validationError
      ("Only operators can have active scopes, got " ++ frame.owner_type)))
  else
    let active_scopes := frame.active_scopes.getD []
    if scope_uuid ∈ active_scopes then
      (frame, some (.validationError
        ("Scope already in active set: " ++ scope_uuid)))
    else
      let active1 := active_scopes ++ [scope_uuid]
      let primary1 :=
        match frame.primary_scope with
        | none => some scope_uuid
        | some p => some p
      ({ frame with active_scopes := some active1, primary_scope := primary1 },
        none)

end MemoGarden

namespace MemoGarden

/-- C7 counterexample: with containers already longer than N, visiting a
primitive-typed entity leaves the list unchanged, so its length exceeds N
after `update_containers` — the unconditional `|containers| ≤ N` bound of
the claim fails on the primitive path. -/
theorem c7_counterexample_primitive_keeps_oversize :
    (let frame : ContextFrame :=
      { uuid := "cf1", owner := "op1", owner_type := "operator",
        containers := ["u1", "u2", "u3", "u4"], view_timeline := [],
        created_at := "t0", parent_frame_uuid := none, is_subordinate := false,
        active_scopes := some [], primary_scope := none }
    updateContainers (some "Schema") frame "v1" 3 = .ok frame ∧
    frame.containers.length = 4 ∧ ¬frame.containers.length ≤ 3) := by
  decide

/-- C7 as amended: for N in [3,20], (i) visiting an entity whose type is in
the primitive set returns the frame unchanged; (ii) on every substantive
visit (type not primitive, or uuid not resolving to an entity) the new
containers list has length at most N and the visited uuid at index 0; and
(iii) the N-bound is preserved: a frame whose containers already fit in N
still fits after any visit — the unconditional bound holds only from
bounded states, because a primitive visit leaves an oversized list as it
was. -/
theorem c7_update_containers_lru
    (entityType? : Option String) (frame : ContextFrame)
    (visited : String) (n : Nat) (hlo : 3 ≤ n) (hhi : n ≤ 20) :
    (∀ t, entityType? = some t → t ∈ PRIMITIVE_TYPES →
      updateContainers entityType? frame visited n = .ok frame) ∧
    ((entityType? = none ∨ ∃ t, entityType? = some t ∧ t ∉ PRIMITIVE_TYPES) →
      ∃ frame', updateContainers entityType? frame visited n = .ok frame' ∧
        frame'.containers.length ≤ n ∧
        frame'.containers.head? = some visited) ∧
    (frame.containers.length ≤ n →
      ∀ frame', updateContainers entityType? frame visited n = .ok frame' →
        frame'.containers.length ≤ n) := by
  have hrange : ¬¬(3 ≤ n ∧ n ≤ 20) := not_not_intro ⟨hlo, hhi⟩
  have hlen : (lruInsert frame.containers visited n).length ≤ n := by
    unfold lruInsert
    by_cases h : n < (visited :: (if visited ∈ frame.containers
        then frame.containers.erase visited else frame.containers)).length
    · rw [if_pos h]
      simpa using List.length_take_le n _
    · rw [if_neg h]
      exact Nat.le_of_not_lt h
  have hhead : (lruInsert frame.containers visited n).head? = some visited := by
    unfold lruInsert
    by_cases h : n < (visited :: (if visited ∈ frame.containers
        then frame.containers.erase visited else frame.containers)).length
    · rw [if_pos h]
      rcases n with _ | m
      · omega
      · rw [List.take_succ_cons]
        rfl
    · rw [if_neg h]
      rfl
  refine ⟨?_, ?_, ?_⟩
  · intro t ht hprim
    subst ht
    unfold updateContainers
    rw [if_neg hrange]
    simp [hprim]
  · rintro (hnone | ⟨t, ht, hsub⟩)
    · subst hnone
      unfold updateContainers
      rw [if_neg hrange]
      exact ⟨_, rfl, hlen, hhead⟩
    · subst ht
      unfold updateContainers
      rw [if_neg hrange]
      dsimp only
      rw [if_neg hsub]
      exact ⟨_, rfl, hlen, hhead⟩
  · intro hb frame' h
    unfold updateContainers at h
    rw [if_neg hrange] at h
    rcases entityType? with _ | t
    · cases h
      exact hlen
    · dsimp only at h
      by_cases hprim : t ∈ PRIMITIVE_TYPES
      · rw [if_pos hprim] at h
        cases h
        exact hb
      · rw [if_neg hprim] at h
        cases h
        exact hlen

/-- C7 witness: the amended theorem at a concrete substantive visit — the
visited uuid lands at index 0 and the list fits in N = 3. -/
theorem c7_update_containers_lru_witness :
    ∃ frame', updateContainers (some "Note")
        { uuid := "cf1", owner := "op1", owner_type := "operator",
          containers := ["u1", "u2", "u3"], view_timeline := [],
          created_at := "t0", parent_frame_uuid := none,
          is_subordinate := false, active_scopes := some [],
          primary_scope := none }
        "v1" 3 = .ok frame' ∧
      frame'.containers.length ≤ 3 ∧
      frame'.containers.head? = some "v1" :=
  (c7_update_containers_lru (some "Note")
      { uuid := "cf1", owner := "op1", owner_type := "operator",
        containers := ["u1", "u2", "u3"], view_timeline := [],
        created_at := "t0", parent_frame_uuid := none,
        is_subordinate := false, active_scopes := some [],
        primary_scope := none }
      "v1" 3 (by decide) (by decide)).2.1
    (Or.inr ⟨"Note", rfl, by decide⟩)

/-- C10: entering a scope already in the active set raises
`ValidationError` and leaves the frame — both `active_scopes` and
`primary_scope` — unchanged: entering is not an idempotent append. -/
theorem c10_enter_scope_rejects_active
    (frame : ContextFrame) (scope_uuid : String)
    (hop : frame.owner_type = "operator")
    (hmem : scope_uuid ∈ frame.active_scopes.getD []) :
    enterScope frame scope_uuid =
      (frame, some (.validationError
        ("Scope already in active set: " ++ scope_uuid))) := by
  unfold enterScope
  rw [if_neg (not_not_intro hop)]
  simp [hmem]

/-- C10 witness: a concrete operator frame with the scope already active is
returned unchanged together with the `ValidationError`. -/
theorem c10_enter_scope_rejects_active_witness :
    enterScope
        { uuid := "cf1", owner := "op1", owner_type := "operator",
          containers := [], view_timeline := [], created_at := "t0",
          parent_frame_uuid := none, is_subordinate := false,
          active_scopes := some ["s1", "s2"], primary_scope := some "s1" }
        "s2" =
      ({ uuid := "cf1", owner := "op1", owner_type := "operator",
         containers := [], view_timeline := [], created_at := "t0",
         parent_frame_uuid := none, is_subordinate := false,
         active_scopes := some ["s1", "s2"], primary_scope := some "s1" },
       some (.validationError "Scope already in active set: s2")) :=
  c10_enter_scope_rejects_active _ "s2" (by decide) (by decide)

end MemoGarden

namespace MemoGarden

-- ===========================================================================
-- Soil system relations (src/system/soil/database.py, Soil.create_relation)
-- ===========================================================================

/-- One row of the Soil `system_relation` table (§3 SystemRelation). -/
structure SystemRelationRow where
  uuid : String
  kind : String
  source : String
  source_type : String
  target : String
  target_type : String
  created_at : Int
  evidence : Option String
  metadata : Option String
  deriving DecidableEq, Repr

/-- `Soil.create_relation(relation)` (src/system/soil/database.py lines
297-343): `INSERT INTO system_relation …`; on `IntegrityError` fetch and
return the existing row's uuid under the same `(kind, source, target)`.
Modelled from the spec for the constraint only: the
`UNIQUE(kind, source, target)` index lives in `schemas/sql/soil.sql`,
which is outside src/ — the source comment at the `except` branch and §3
("at most one SystemRelation per (kind, source, target)") fix it, so the
insert raises exactly when a row with the same key exists. -/
def createRelation (tbl : List SystemRelationRow) (rel : SystemRelationRow) :
    List SystemRelationRow × String :=
  match tbl.find? (fun x =>
      x.kind = rel.kind ∧ x.source = rel.source ∧ x.target = rel.target) with
  | some row => (tbl, row.uuid)
  | none => (tbl ++ [rel], rel.uuid)

/-- `SELECT COUNT(*) FROM system_relation WHERE kind = ? AND source = ?
AND target = ?`. -/
def relKeyCount (tbl : List SystemRelationRow)
    (kind source target : String) : Nat :=
  (tbl.filter (fun x =>
    x.kind = kind ∧ x.source = source ∧ x.target = target)).length

-- ===========================================================================
-- Engagement index (src/system/core/relation.py, fact_time_horizon)
-- ===========================================================================

/-- SQL `MAX(column)` over a bag of values: `NULL` exactly on the empty
bag. -/
def listMax? : List Int → Option Int
  | [] => none
  | x :: xs =>
    match listMax? xs with
    | none => some x
    | some m => some (max x m)

/-- `RelationOperations.fact_time_horizon(fact_uuid)`
(src/system/core/relation.py lines 327-361):
`SELECT MAX(time_horizon) FROM user_relation WHERE target = ?` — over all
inbound rows, with no aliveness filter; `none` exactly when the target has
no inbound user relations at all. -/
def factTimeHorizon (tbl : List UserRelRow) (fact_uuid : String) : Option Int :=
  listMax? ((tbl.filter (fun r => r.target = stripTag fact_uuid)).map
    (fun r => r.time_horizon))

/-- The claim's reading of `fact_time_horizon`: the maximum only over
*alive* inbound relations (`time_horizon ≥ today`, `today` standing for
`current_day()`), ⊥ when no inbound relation is alive. Follows the spec's
words (§3/§4.4), for comparison with the source translation
`factTimeHorizon`. -/
def factTimeHorizonSpec (today : Int) (tbl : List UserRelRow)
    (fact_uuid : String) : Option Int :=
  listMax? ((tbl.filter (fun r =>
    r.target = stripTag fact_uuid ∧ today ≤ r.time_horizon)).map
    (fun r => r.time_horizon))

-- ===========================================================================
-- Deployment-context and database-path resolution
-- (src/system/host/environment.py)
-- ===========================================================================

/-- `os.environ.get(key)` over an association-list environment. -/
def getEnv (env : List (String × String)) (key : String) : Option String :=
  (env.find? (fun p => p.1 = key)).map (fun p => p.2)

/-- `Path(dir) / name`. -/
def pathJoin (dir name : String) : String := dir ++ "/" ++ name

/-- `RuntimeContext` (src/system/host/environment.py lines 25-43), with
paths as plain strings. -/
structure RuntimeContext where
  verb : String
  data_dir : String
  config_dir : String
  log_dir : Option String
  signal_method : String
  deriving DecidableEq, Repr

/-- `resolve_context(verb)` without a config override
(src/system/host/environment.py lines 105-179); `home` stands for
`Path.home()`. -/
def resolveContext (home : String) (verb : String) :
    Except PyErr RuntimeContext :=
  if verb = "serve" then
    .ok { verb := "serve", data_dir := "/var/lib/memogarden",
          config_dir := "/etc/memogarden",
          log_dir := some "/var/log/memogarden", signal_method := "systemd" }
  else if verb = "run" then
    .ok { verb := "run", data_dir := pathJoin home ".local/share/memogarden",
          config_dir := pathJoin home ".config/memogarden",
          log_dir := some (pathJoin home ".local/state/memogarden/logs"),
          signal_method := "stdout" }
  else if verb = "deploy" then
    .ok { verb := "deploy", data_dir := "/data", config_dir := "/config",
          log_dir := none, signal_method := "none" }
  else
    .error (.valueError ("Invalid verb: " ++ verb))

/-- The layer-specific env var `MEMOGARDEN_{LAYER}_DB` for the two
permitted layers. -/
def layerDbVar (layer : String) : String :=
  if layer = "soil" then "MEMOGARDEN_SOIL_DB" else "MEMOGARDEN_CORE_DB"

/-- `get_db_path(layer)` (src/system/host/environment.py lines 195-242):
(1) the layer-specific env var, else (2) `MEMOGARDEN_DATA_DIR/<layer>.db`,
else (3) the *current directory* `./<layer>.db`. A variable set to the
empty string is falsy in Python and is skipped. -/
def getDbPath (env : List (String × String)) (layer : String) :
    Except PyErr String :=
  if ¬(layer = "soil" ∨ layer = "core") then
    .error (.valueError ("Invalid layer: " ++ layer))
  else
    let layerPath :=
      match getEnv env (layerDbVar layer) with
      | some p => if p = "" then none else some p
      | none => none
    match layerPath with
    | some p => .ok p
    | none =>
      let dataDir :=
        match getEnv env "MEMOGARDEN_DATA_DIR" with
        | some d => if d = "" then none else some d
        | none => none
      match dataDir with
      | some d => .ok (pathJoin d (layer ++ ".db"))
      | none => .ok ("./" ++ layer ++ ".db")

/-- The claim's reading of the third fallback: the *verb default* data
directory. Follows the spec's words (§4.10), for comparison with the
source translation `getDbPath`. -/
def getDbPathSpec (home verb : String) (env : List (String × String))
    (layer : String) : Except PyErr String :=
  if ¬(layer = "soil" ∨ layer = "core") then
    .error (.valueError ("Invalid layer: " ++ layer))
  else
    let layerPath :=
      match getEnv env (layerDbVar layer) with
      | some p => if p = "" then none else some p
      | none => none
    match layerPath with
    | some p => .ok p
    | none =>
      let dataDir :=
        match getEnv env "MEMOGARDEN_DATA_DIR" with
        | some d => if d = "" then none else some d
        | none => none
      match dataDir with
      | some d => .ok (pathJoin d (layer ++ ".db"))
      | none =>
        match resolveContext home verb with
        | .ok ctx => .ok (pathJoin ctx.data_dir (layer ++ ".db"))
        | .error e => .error e

end MemoGarden

namespace MemoGarden

/-- C5: inserting the same `(kind, source, target)` key twice stores one
row and hands back the stored relation's uuid on the duplicate call:
starting from a table with no row under the key, the first call appends
`r1` and returns `r1.uuid`; the second call with an equal key returns that
same uuid and leaves the table as it was, so exactly one row exists under
the key. -/
theorem c5_create_relation_idempotent
    (tbl : List SystemRelationRow) (r1 r2 : SystemRelationRow)
    (hk : r2.kind = r1.kind) (hs : r2.source = r1.source)
    (ht : r2.target = r1.target)
    (hfresh : tbl.find? (fun x =>
      x.kind = r1.kind ∧ x.source = r1.source ∧ x.target = r1.target) = none) :
    createRelation tbl r1 = (tbl ++ [r1], r1.uuid) ∧
    createRelation (tbl ++ [r1]) r2 = (tbl ++ [r1], r1.uuid) ∧
    relKeyCount (tbl ++ [r1]) r1.kind r1.source r1.target = 1 := by
  have hnone : ∀ x ∈ tbl,
      ¬(x.kind = r1.kind ∧ x.source = r1.source ∧ x.target = r1.target) := by
    intro x hx
    have := List.find?_eq_none.mp hfresh x hx
    simpa using this
  refine ⟨?_, ?_, ?_⟩
  · unfold createRelation
    rw [hfresh]
  · unfold createRelation
    have hpred : (fun x : SystemRelationRow =>
        decide (x.kind = r2.kind ∧ x.source = r2.source ∧ x.target = r2.target)) =
        (fun x : SystemRelationRow =>
        decide (x.kind = r1.kind ∧ x.source = r1.source ∧ x.target = r1.target)) := by
      funext x
      rw [hk, hs, ht]
    rw [hpred, List.find?_append, hfresh]
    simp
  · unfold relKeyCount
    rw [List.filter_append]
    have h1 : tbl.filter (fun x =>
        x.kind = r1.kind ∧ x.source = r1.source ∧ x.target = r1.target) = [] := by
      rw [List.filter_eq_nil_iff]
      intro x hx
      simpa using hnone x hx
    rw [h1]
    simp

/-- C5 witness: two concrete `create_relation` calls with the same
`(kind, source, target)` key — the duplicate returns the first uuid and
the key holds exactly one row. -/
theorem c5_create_relation_idempotent_witness :
    createRelation []
        { uuid := "u1", kind := "cites", source := "s1", source_type := "item",
          target := "t1", target_type := "item", created_at := 100,
          evidence := none, metadata := none } =
      ([{ uuid := "u1", kind := "cites", source := "s1", source_type := "item",
          target := "t1", target_type := "item", created_at := 100,
          evidence := none, metadata := none }], "u1") ∧
    createRelation
        [{ uuid := "u1", kind := "cites", source := "s1", source_type := "item",
           target := "t1", target_type := "item", created_at := 100,
           evidence := none, metadata := none }]
        { uuid := "u2", kind := "cites", source := "s1", source_type := "item",
          target := "t1", target_type := "item", created_at := 101,
          evidence := none, metadata := none } =
      ([{ uuid := "u1", kind := "cites", source := "s1", source_type := "item",
          target := "t1", target_type := "item", created_at := 100,
          evidence := none, metadata := none }], "u1") ∧
    relKeyCount
        [{ uuid := "u1", kind := "cites", source := "s1", source_type := "item",
           target := "t1", target_type := "item", created_at := 100,
           evidence := none, metadata := none }]
        "cites" "s1" "t1" = 1 :=
  c5_create_relation_idempotent [] _ _ rfl rfl rfl (by decide)

/-- `listMax?` is `none` exactly on the empty list. -/
theorem listMax?_eq_none_iff (l : List Int) : listMax? l = none ↔ l = [] := by
  cases l with
  | nil => simp [listMax?]
  | cons x xs =>
    unfold listMax?
    cases h : listMax? xs <;> simp

/-- A `listMax?` value is an element and an upper bound. -/
theorem listMax?_spec (l : List Int) :
    ∀ m, listMax? l = some m → m ∈ l ∧ ∀ x ∈ l, x ≤ m := by
  induction l with
  | nil => intro m h; simp [listMax?] at h
  | cons a tl ih =>
    intro m h
    unfold listMax? at h
    cases htl : listMax? tl with
    | none =>
      rw [htl] at h
      cases h
      have hnil : tl = [] := (listMax?_eq_none_iff tl).mp htl
      subst hnil
      simp
    | some k =>
      rw [htl] at h
      cases h
      obtain ⟨hk, hall⟩ := ih k htl
      constructor
      · rcases le_total a k with hle | hle
        · rw [max_eq_right hle]
          exact List.mem_cons_of_mem a hk
        · rw [max_eq_left hle]
          exact List.mem_cons_self a tl
      · intro x hx
        rcases List.mem_cons.mp hx with rfl | hx
        · exact le_max_left x k
        · exact (hall x hx).trans (le_max_right a k)

/-- C6 counterexample: a target whose only inbound relation expired
(`time_horizon = 5 < current_day = 10`) still gets `5` from
`fact_time_horizon` — over all inbound rows — while the claim's
alive-filtered reading yields ⊥; the claimed equality fails. -/
theorem c6_counterexample_expired_inbound :
    (let tbl : List UserRelRow :=
      [{ uuid := "r1", kind := "explicit_link", source := "s1",
         source_type := "item", target := "f1", target_type := "entity",
         time_horizon := 5, last_access_at := 3, created_at := 1,
         evidence := none, metadata := none }]
    factTimeHorizon tbl "f1" = some 5 ∧
    factTimeHorizonSpec 10 tbl "f1" = none ∧
    factTimeHorizon tbl "f1" ≠ factTimeHorizonSpec 10 tbl "f1") := by
  constructor
  · rfl
  · constructor
    · rfl
    · intro h
      cases h

/-- C6 as amended: `fact_time_horizon` returns the maximum `time_horizon`
over *all* of the target's inbound user relations, alive or expired — some
achieving relation exists and every inbound relation is bounded by the
result — and returns ⊥ exactly when the target has no inbound user
relations at all. -/
theorem c6_fact_time_horizon_max_inbound
    (tbl : List UserRelRow) (fact_uuid : String) :
    (factTimeHorizon tbl fact_uuid = none ↔
      tbl.filter (fun r => r.target = stripTag fact_uuid) = []) ∧
    (∀ m, factTimeHorizon tbl fact_uuid = some m →
      (∃ r ∈ tbl, r.target = stripTag fact_uuid ∧ r.time_horizon = m) ∧
      ∀ r ∈ tbl, r.target = stripTag fact_uuid → r.time_horizon ≤ m) := by
  constructor
  · unfold factTimeHorizon
    rw [listMax?_eq_none_iff]
    simp
  · intro m h
    obtain ⟨hm, hub⟩ := listMax?_spec _ m h
    constructor
    · obtain ⟨r, hr, hrm⟩ := List.mem_map.mp hm
      obtain ⟨hrt, hrp⟩ := List.mem_filter.mp hr
      exact ⟨r, hrt, by simpa using hrp, hrm⟩
    · intro r hr hrt
      exact hub r.time_horizon
        (List.mem_map_of_mem _ (List.mem_filter.mpr ⟨hr, by simpa using hrt⟩))

/-- C6 witness: the amended theorem at a concrete two-relation table (one
alive at horizon 9, one expired at horizon 5): the result 9 is achieved
and bounds both inbound horizons. -/
theorem c6_fact_time_horizon_max_inbound_witness :
    (∃ r ∈ [({ uuid := "r1", kind := "explicit_link", source := "s1",
               source_type := "item", target := "f1", target_type := "entity",
               time_horizon := 5, last_access_at := 3, created_at := 1,
               evidence := none, metadata := none } : UserRelRow),
             { uuid := "r2", kind := "explicit_link", source := "s2",
               source_type := "item", target := "f1", target_type := "entity",
               time_horizon := 9, last_access_at := 3, created_at := 1,
               evidence := none, metadata := none }],
        r.target = stripTag "f1" ∧ r.time_horizon = 9) ∧
      ∀ r ∈ [({ uuid := "r1", kind := "explicit_link", source := "s1",
                source_type := "item", target := "f1", target_type := "entity",
                time_horizon := 5, last_access_at := 3, created_at := 1,
                evidence := none, metadata := none } : UserRelRow),
              { uuid := "r2", kind := "explicit_link", source := "s2",
                source_type := "item", target := "f1", target_type := "entity",
                time_horizon := 9, last_access_at := 3, created_at := 1,
                evidence := none, metadata := none }],
        r.target = stripTag "f1" → r.time_horizon ≤ 9 :=
  (c6_fact_time_horizon_max_inbound _ "f1").2 9 (by decide)

/-- C9 counterexample: with no relevant environment variables set, the
code resolves the soil path to `./soil.db` (the current directory), not to
the `serve` verb's default data directory `/var/lib/memogarden/soil.db`
that the claim names as the third fallback. -/
theorem c9_counterexample_fallback_is_cwd :
    getDbPath [] "soil" = .ok "./soil.db" ∧
    getDbPathSpec "/root" "serve" [] "soil" = .ok "/var/lib/memogarden/soil.db" ∧
    getDbPath [] "soil" ≠ getDbPathSpec "/root" "serve" [] "soil" := by
  refine ⟨rfl, rfl, ?_⟩
  intro h
  cases h

/-- C9 as amended: for each layer in {soil, core}, the database path
resolves to the nonempty layer-specific `MEMOGARDEN_<LAYER>_DB` variable
when set; otherwise to nonempty `MEMOGARDEN_DATA_DIR` joined with
`<layer>.db`; otherwise to `./<layer>.db` in the *current directory* (not
the verb default data directory). An empty-string variable counts as
unset. -/
theorem c9_db_path_resolution
    (env : List (String × String)) (layer : String)
    (hlayer : layer = "soil" ∨ layer = "core") :
    (∀ p, getEnv env (layerDbVar layer) = some p → p ≠ "" →
      getDbPath env layer = .ok p) ∧
    ((getEnv env (layerDbVar layer) = none ∨
      getEnv env (layerDbVar layer) = some "") →
      ∀ d, getEnv env "MEMOGARDEN_DATA_DIR" = some d → d ≠ "" →
      getDbPath env layer = .ok (pathJoin d (layer ++ ".db"))) ∧
    ((getEnv env (layerDbVar layer) = none ∨
      getEnv env (layerDbVar layer) = some "") →
     (getEnv env "MEMOGARDEN_DATA_DIR" = none ∨
      getEnv env "MEMOGARDEN_DATA_DIR" = some "") →
      getDbPath env layer = .ok ("./" ++ layer ++ ".db")) := by
  have hguard : ¬¬(layer = "soil" ∨ layer = "core") := not_not_intro hlayer
  refine ⟨?_, ?_, ?_⟩
  · intro p hp hne
    unfold getDbPath
    rw [if_neg hguard, hp]
    dsimp only
    rw [if_neg hne]
  · rintro (h1 | h1) d hd hne <;>
      (unfold getDbPath; rw [if_neg hguard, h1]; simp [hd, hne])
  · rintro (h1 | h1) (h2 | h2) <;>
      (unfold getDbPath; rw [if_neg hguard, h1]; simp [h2])

/-- C9 witness: the amended theorem's precedence at a concrete
environment holding both variables — the layer-specific path wins. -/
theorem c9_db_path_resolution_witness :
    getDbPath [("MEMOGARDEN_SOIL_DB", "/custom/soil.db"),
               ("MEMOGARDEN_DATA_DIR", "/data")] "soil" =
      .ok "/custom/soil.db" :=
  (c9_db_path_resolution
      [("MEMOGARDEN_SOIL_DB", "/custom/soil.db"),
       ("MEMOGARDEN_DATA_DIR", "/data")] "soil" (Or.inl rfl)).1
    "/custom/soil.db" (by decide) (by decide)

end MemoGarden
